import Mathlib

/-!
Verification development for the crowdfunding ledger.

The definitions below are a shallow embedding of the repository code:

* `MemStorage` and its operations embed `MemStorage` from
  `server/storage.ts` (JavaScript `Map`s become association lists ordered
  by insertion, as JS `Map` iteration is insertion-ordered; monetary
  amounts, stored as doubles in the source, are modelled by exact
  integers; `throw new Error(msg)` becomes `Except.error msg`).
* `MongoStorage` and its operations embed `MongoDBStorage` from
  `server/db/mongodb-storage.ts` (a collection becomes a list of
  documents; `.sort` becomes `List.insertionSort`; ids are strings).
* The wallet transfer client (`client/src/hooks/use-metamask.tsx`) is
  embedded by `convertToWei`, `tieredConvertToWei`, `sendTransactionStep`
  and `checkConfirm`; JavaScript string operations are modelled over
  `List Char`, and the float arithmetic of the tiered conversion variant
  is modelled by exact rationals.
-/

namespace Ledger

/-! ## Entity records (from `shared/schema.ts`) -/

/-- User row: id, username, password, email, optional wallet address,
wallet-confirmed flag, user type, creation time. -/
structure User where
  id : Nat
  username : String
  password : String
  email : String
  walletAddress : Option String
  walletConfirmed : Bool
  userType : String
  createdAt : Nat
  deriving DecidableEq

/-- Startup row (profile blobs that no operation reads are omitted). -/
structure Startup where
  id : Nat
  userId : Nat
  name : String
  fundingGoal : Int
  currentFunding : Int
  createdAt : Nat
  deriving DecidableEq

/-- Investment row. -/
structure Investment where
  id : Nat
  investorId : Nat
  startupId : Nat
  amount : Int
  transactionHash : String
  createdAt : Nat
  deriving DecidableEq

/-- Update row. -/
structure Update where
  id : Nat
  startupId : Nat
  title : String
  content : String
  createdAt : Nat
  deriving DecidableEq

/-- Milestone row. -/
structure Milestone where
  id : Nat
  startupId : Nat
  title : String
  description : Option String
  targetDate : Option Nat
  completed : Bool
  createdAt : Nat
  deriving DecidableEq

/-- Insert payload for `createUser` (id, createdAt, walletConfirmed are
applied server-side). -/
structure InsertUser where
  username : String
  password : String
  email : String
  walletAddress : Option String
  userType : String
  deriving DecidableEq

/-- Insert payload for `createStartup`. -/
structure InsertStartup where
  userId : Nat
  name : String
  fundingGoal : Int
  deriving DecidableEq

/-- Insert payload for `createInvestment`. -/
structure InsertInvestment where
  investorId : Nat
  startupId : Nat
  amount : Int
  transactionHash : String
  deriving DecidableEq

/-- Insert payload for `createUpdate`. -/
structure InsertUpdate where
  startupId : Nat
  title : String
  content : String
  deriving DecidableEq

/-- Insert payload for `createMilestone`. -/
structure InsertMilestone where
  startupId : Nat
  title : String
  description : Option String
  targetDate : Option Nat
  deriving DecidableEq

/-! ## JS `Map` primitives over insertion-ordered association lists.

`Map.set` replaces in place when the key is present and appends
otherwise; `Map.get` returns the entry at the key; `Map.delete` removes
it.  `key` extracts the key of a row. -/

/-- `Map.set`: replace in place when the key is present, append otherwise. -/
def mapSet (key : α → Nat) (l : List α) (k : Nat) (v : α) : List α :=
  if l.any (fun x => key x == k) then
    l.map (fun x => if key x == k then v else x)
  else
    l ++ [v]

/-- `Map.get`: the entry stored at key `k`. -/
def mapGet (key : α → Nat) (l : List α) (k : Nat) : Option α :=
  l.find? (fun x => key x == k)

/-- `Map.delete`: remove the entry stored at key `k`. -/
def mapDelete (key : α → Nat) (l : List α) (k : Nat) : List α :=
  l.filter (fun x => ! (key x == k))

/-! ## `MemStorage` (server/storage.ts) -/

/-- The in-process backend: one insertion-ordered map per entity and a
monotonic id counter per entity. -/
structure MemStorage where
  users : List User
  startups : List Startup
  investments : List Investment
  updates : List Update
  milestones : List Milestone
  userIdCounter : Nat
  startupIdCounter : Nat
  investmentIdCounter : Nat
  updateIdCounter : Nat
  milestoneIdCounter : Nat
  deriving DecidableEq

/-- The freshly constructed storage: empty maps, every counter at 1. -/
def emptyMem : MemStorage :=
  ⟨[], [], [], [], [], 1, 1, 1, 1, 1⟩

/-- `MemStorage.getUser`. -/
def getUser (s : MemStorage) (id : Nat) : Option User :=
  mapGet User.id s.users id

/-- `MemStorage.getStartup`. -/
def getStartup (s : MemStorage) (id : Nat) : Option Startup :=
  mapGet Startup.id s.startups id

/-- `MemStorage.getStartupByUserId`. -/
def getStartupByUserId (s : MemStorage) (userId : Nat) : Option Startup :=
  s.startups.find? (fun st => st.userId == userId)

/-- `MemStorage.getStartups` (no sort: `Array.from(map.values())`). -/
def getStartups (s : MemStorage) : List Startup :=
  s.startups

/-- `MemStorage.getInvestments` (no sort). -/
def getInvestments (s : MemStorage) : List Investment :=
  s.investments

/-- `MemStorage.getInvestment`. -/
def getInvestment (s : MemStorage) (id : Nat) : Option Investment :=
  mapGet Investment.id s.investments id

/-- `MemStorage.getUserInvestments`. -/
def getUserInvestments (s : MemStorage) (userId : Nat) : List Investment :=
  s.investments.filter (fun inv => inv.investorId == userId)

/-- `MemStorage.getStartupInvestments`. -/
def getStartupInvestments (s : MemStorage) (startupId : Nat) : List Investment :=
  s.investments.filter (fun inv => inv.startupId == startupId)

/-- `MemStorage.getUpdates` (no sort). -/
def getUpdates (s : MemStorage) : List Update :=
  s.updates

/-- `MemStorage.getUpdate`. -/
def getUpdate (s : MemStorage) (id : Nat) : Option Update :=
  mapGet Update.id s.updates id

/-- `MemStorage.getStartupUpdates`. -/
def getStartupUpdates (s : MemStorage) (startupId : Nat) : List Update :=
  s.updates.filter (fun u => u.startupId == startupId)

/-- `MemStorage.getMilestones` (no sort). -/
def getMilestones (s : MemStorage) : List Milestone :=
  s.milestones

/-- `MemStorage.getMilestone`. -/
def getMilestone (s : MemStorage) (id : Nat) : Option Milestone :=
  mapGet Milestone.id s.milestones id

/-- `MemStorage.getStartupMilestones`. -/
def getStartupMilestones (s : MemStorage) (startupId : Nat) : List Milestone :=
  s.milestones.filter (fun m => m.startupId == startupId)

/-- `MemStorage.createStartup`: assign the counter as id, stamp the
creation time, apply the server-side default `currentFunding = 0`. -/
def createStartup (s : MemStorage) (ins : InsertStartup) (now : Nat) :
    MemStorage × Startup :=
  let id := s.startupIdCounter
  let st : Startup :=
    ⟨id, ins.userId, ins.name, ins.fundingGoal, 0, now⟩
  ({ s with startups := mapSet Startup.id s.startups id st,
            startupIdCounter := id + 1 }, st)

/-- `MemStorage.createInvestment`: assign the counter as id and stamp the
creation time. -/
def createInvestment (s : MemStorage) (ins : InsertInvestment) (now : Nat) :
    MemStorage × Investment :=
  let id := s.investmentIdCounter
  let inv : Investment :=
    ⟨id, ins.investorId, ins.startupId, ins.amount, ins.transactionHash, now⟩
  ({ s with investments := mapSet Investment.id s.investments id inv,
            investmentIdCounter := id + 1 }, inv)

/-- `MemStorage.updateStartupFunding`: add `amount` to the resolved
startup record, `Startup not found` otherwise.  (The source guards the
read with `startup.currentFunding || 0`; the field is always a number
here, so the guard is the identity.) -/
def updateStartupFunding (s : MemStorage) (startupId : Nat) (amount : Int) :
    Except String (MemStorage × Startup) :=
  match getStartup s startupId with
  | none => .error ("Startup not found")
  | some st =>
    let st' : Startup := { st with currentFunding := st.currentFunding + amount }
    .ok ({ s with startups := mapSet Startup.id s.startups startupId st' }, st')

/-- The `POST /api/investments` workflow: `createInvestment` followed by
`updateStartupFunding` with that investment amount and startup. -/
def investOnce (s : MemStorage) (investorId startupId : Nat)
    (tx : String × Int) (now : Nat) : Except String MemStorage :=
  let p := createInvestment s ⟨investorId, startupId, tx.2, tx.1⟩ now
  (updateStartupFunding p.1 p.2.startupId p.2.amount).map Prod.fst

/-- A sequence of investment workflows against one startup. -/
def runInvestments (s : MemStorage) (investorId startupId : Nat)
    (txs : List (String × Int)) (now : Nat) : Except String MemStorage :=
  match txs with
  | [] => .ok s
  | tx :: rest =>
    match investOnce s investorId startupId tx now with
    | .error e => .error e
    | .ok s1 => runInvestments s1 investorId startupId rest now

/-- Sum of the amounts of a list of investments. -/
def sumAmounts (l : List Investment) : Int :=
  (l.map Investment.amount).sum

/-- Well-formedness of investment ids: every stored id is below the
counter, so a fresh insert never overwrites an existing row. -/
def InvWF (s : MemStorage) : Prop :=
  ∀ inv ∈ s.investments, inv.id < s.investmentIdCounter

/-- `MemStorage.createUser`: reject a wallet address already bound to
another account, then assign the counter as id, stamp the creation time,
and default `walletConfirmed` to false. -/
def createUser (s : MemStorage) (ins : InsertUser) (now : Nat) :
    Except String (MemStorage × User) :=
  if s.users.any (fun u => u.walletAddress == ins.walletAddress
      && ins.walletAddress.isSome) then
    .error ("Wallet address is already in use by another account")
  else
    let id := s.userIdCounter
    let u : User :=
      ⟨id, ins.username, ins.password, ins.email, ins.walletAddress,
        false, ins.userType, now⟩
    .ok ({ s with users := mapSet User.id s.users id u,
                  userIdCounter := id + 1 }, u)

/-- `MemStorage.updateUserWalletAddress`: not-found, then conflict when
the wallet is already confirmed, then conflict when the address belongs
to another user, else overwrite the address. -/
def updateUserWalletAddress (s : MemStorage) (userId : Nat)
    (walletAddress : String) : Except String (MemStorage × User) :=
  match getUser s userId with
  | none => .error ("User not found")
  | some user =>
    if user.walletConfirmed then
      .error ("Wallet address has already been confirmed and cannot be changed")
    else if s.users.any
        (fun u => u.walletAddress == some walletAddress && ! (u.id == userId)) then
      .error ("Wallet address is already in use by another account")
    else
      let user' : User := { user with walletAddress := some walletAddress }
      .ok ({ s with users := mapSet User.id s.users userId user' }, user')

/-- `MemStorage.confirmUserWalletAddress`: not-found, then mismatch when
the address differs from the stored one, then conflict when already
confirmed, else set the one-way confirmed flag. -/
def confirmUserWalletAddress (s : MemStorage) (userId : Nat)
    (walletAddress : String) : Except String (MemStorage × User) :=
  match getUser s userId with
  | none => .error ("User not found")
  | some user =>
    if ¬ (user.walletAddress == some walletAddress) then
      .error ("Wallet address does not match the stored address")
    else if user.walletConfirmed then
      .error ("Wallet address has already been confirmed")
    else
      let user' : User := { user with walletConfirmed := true }
      .ok ({ s with users := mapSet User.id s.users userId user' }, user')

/-- `MemStorage.updateUserEmail`. -/
def updateUserEmail (s : MemStorage) (userId : Nat) (email : String) :
    Except String (MemStorage × User) :=
  match getUser s userId with
  | none => .error ("User not found")
  | some user =>
    if s.users.any (fun u => u.email == email && ! (u.id == userId)) then
      .error ("Email is already in use by another account")
    else
      let user' : User := { user with email := email }
      .ok ({ s with users := mapSet User.id s.users userId user' }, user')

/-- `MemStorage.updateUserPassword`. -/
def updateUserPassword (s : MemStorage) (userId : Nat) (password : String) :
    Except String (MemStorage × User) :=
  match getUser s userId with
  | none => .error ("User not found")
  | some user =>
    let user' : User := { user with password := password }
    .ok ({ s with users := mapSet User.id s.users userId user' }, user')

/-- `MemStorage.deleteUser`: remove the user, then the owned startup (if
any) together with its updates and milestones collected by id, then every
investment of the user, in the order of the source. -/
def deleteUser (s : MemStorage) (userId : Nat) : Except String MemStorage :=
  match getUser s userId with
  | none => .error ("User not found")
  | some _ =>
    let s1 : MemStorage := { s with users := mapDelete User.id s.users userId }
    let s2 : MemStorage :=
      match getStartupByUserId s1 userId with
      | some st =>
        let ups := getStartupUpdates s1 st.id
        let ms := getStartupMilestones s1 st.id
        { s1 with
            startups := mapDelete Startup.id s1.startups st.id,
            updates := s1.updates.filter
              (fun u => ! ups.any (fun v => v.id == u.id)),
            milestones := s1.milestones.filter
              (fun m => ! ms.any (fun v => v.id == m.id)) }
      | none => s1
    let invs := getUserInvestments s2 userId
    .ok ({ s2 with investments := (s2.investments.filter
            (fun i => ! invs.any (fun v => v.id == i.id))) })

/-- `MemStorage.createUpdate`. -/
def createUpdate (s : MemStorage) (ins : InsertUpdate) (now : Nat) :
    MemStorage × Update :=
  let id := s.updateIdCounter
  let u : Update := ⟨id, ins.startupId, ins.title, ins.content, now⟩
  ({ s with updates := mapSet Update.id s.updates id u,
            updateIdCounter := id + 1 }, u)

/-- `MemStorage.createMilestone` (server-side default `completed = false`). -/
def createMilestone (s : MemStorage) (ins : InsertMilestone) (now : Nat) :
    MemStorage × Milestone :=
  let id := s.milestoneIdCounter
  let m : Milestone :=
    ⟨id, ins.startupId, ins.title, ins.description, ins.targetDate, false, now⟩
  ({ s with milestones := mapSet Milestone.id s.milestones id m,
            milestoneIdCounter := id + 1 }, m)

/-- `MemStorage.updateMilestoneStatus`. -/
def updateMilestoneStatus (s : MemStorage) (id : Nat) (completed : Bool) :
    Except String (MemStorage × Milestone) :=
  match getMilestone s id with
  | none => .error ("Milestone not found")
  | some m =>
    let m' : Milestone := { m with completed := completed }
    .ok ({ s with milestones := mapSet Milestone.id s.milestones id m' }, m')

/-- `MemStorage.clearStartups`. -/
def clearStartups (s : MemStorage) : MemStorage :=
  { s with startups := [], startupIdCounter := 1 }

/-! ## List lemmas about the map primitives -/

theorem mapSet_append (key : α → Nat) (l : List α) (k : Nat) (v : α)
    (h : ∀ x ∈ l, key x ≠ k) : mapSet key l k v = l ++ [v] := by
  unfold mapSet
  rw [if_neg]
  simp only [List.any_eq_true, beq_iff_eq, not_exists]
  intro x
  rw [not_and]
  exact h x

theorem find?_replace (p : α → Bool) (v : α) (hv : p v = true) :
    ∀ l : List α, (l.find? p).isSome →
      (l.map (fun x => if p x then v else x)).find? p = some v := by
  intro l
  induction l with
  | nil => intro h; simp [List.find?] at h
  | cons x xs ih =>
    intro h
    by_cases hx : p x = true
    · simp only [List.map_cons, if_pos hx]
      exact List.find?_cons_of_pos _ hv
    · simp only [List.map_cons, if_neg hx]
      rw [List.find?_cons_of_neg _ hx]
      rw [List.find?_cons_of_neg _ hx] at h
      exact ih h

theorem find?_mapSet_self (key : α → Nat) (l : List α) (k : Nat) (v : α)
    (hv : key v = k) (h : (l.find? (fun x => key x == k)).isSome) :
    (mapSet key l k v).find? (fun x => key x == k) = some v := by
  unfold mapSet
  have hany : l.any (fun x => key x == k) = true := by
    rw [List.any_eq_true]
    obtain ⟨a, ha⟩ := Option.isSome_iff_exists.mp h
    exact ⟨a, List.mem_of_find?_eq_some ha,
      List.find?_some (p := fun x => key x == k) ha⟩
  rw [if_pos hany]
  exact find?_replace _ v (by simp [hv]) l h

/-! ## C1: the investment workflow keeps `currentFunding` equal to the
sum of recorded investment amounts -/

theorem createInvestment_append (s : MemStorage) (ins : InsertInvestment)
    (now : Nat) (hwf : InvWF s) :
    createInvestment s ins now =
      ({ s with
          investments := s.investments ++
            [⟨s.investmentIdCounter, ins.investorId, ins.startupId,
              ins.amount, ins.transactionHash, now⟩],
          investmentIdCounter := s.investmentIdCounter + 1 },
        ⟨s.investmentIdCounter, ins.investorId, ins.startupId,
          ins.amount, ins.transactionHash, now⟩) := by
  simp only [createInvestment]
  rw [mapSet_append Investment.id s.investments s.investmentIdCounter _
    (fun x hx => Nat.ne_of_lt (hwf x hx))]

theorem updateStartupFunding_ok (s : MemStorage) (sid : Nat) (st st' : Startup)
    (a : Int) (h : getStartup s sid = some st)
    (hst' : st' = { st with currentFunding := st.currentFunding + a }) :
    updateStartupFunding s sid a =
      .ok ({ s with startups := mapSet Startup.id s.startups sid st' }, st') := by
  subst hst'
  unfold updateStartupFunding
  rw [h]

theorem getStartup_after_mapSet (s : MemStorage) (sid : Nat) (st st' : Startup)
    (h : getStartup s sid = some st) (hid : st'.id = st.id) :
    (mapSet Startup.id s.startups sid st').find?
      (fun x => Startup.id x == sid) = some st' := by
  have h' : s.startups.find? (fun x => Startup.id x == sid) = some st := h
  have hpst : (Startup.id st == sid) = true :=
    List.find?_some (p := fun x => Startup.id x == sid) h'
  exact find?_mapSet_self Startup.id s.startups sid st'
    (by rw [hid]; exact beq_iff_eq.mp hpst)
    (by rw [h']; rfl)

theorem runInvestments_spec (investorId startupId : Nat) (now : Nat) :
    ∀ (txs : List (String × Int)) (s : MemStorage) (st : Startup),
      InvWF s → getStartup s startupId = some st →
      ∃ s' st', runInvestments s investorId startupId txs now = .ok s' ∧
        getStartup s' startupId = some st' ∧
        st'.currentFunding = st.currentFunding + (txs.map Prod.snd).sum ∧
        sumAmounts (getStartupInvestments s' startupId)
          = sumAmounts (getStartupInvestments s startupId)
            + (txs.map Prod.snd).sum := by
  intro txs
  induction txs with
  | nil =>
    intro s st hwf hst
    exact ⟨s, st, rfl, hst, by simp, by simp⟩
  | cons tx rest ih =>
    intro s st hwf hst
    -- the investment append step
    have hcr := createInvestment_append s
      ⟨investorId, startupId, tx.2, tx.1⟩ now hwf
    set inv : Investment :=
      ⟨s.investmentIdCounter, investorId, startupId, tx.2, tx.1, now⟩ with hinv
    set s1 : MemStorage :=
      { s with investments := s.investments ++ [inv],
               investmentIdCounter := s.investmentIdCounter + 1 } with hs1
    have hst1 : getStartup s1 startupId = some st := hst
    -- the funding increment step
    set st' : Startup :=
      { st with currentFunding := st.currentFunding + tx.2 } with hst'
    have hupd := updateStartupFunding_ok s1 startupId st st' tx.2 hst1 hst'
    set s2 : MemStorage :=
      { s1 with startups := mapSet Startup.id s1.startups startupId st' }
      with hs2
    have hstep : investOnce s investorId startupId tx now = .ok s2 := by
      unfold investOnce
      rw [hcr]
      exact congrArg (Except.map Prod.fst) hupd
    have hst2 : getStartup s2 startupId = some st' :=
      getStartup_after_mapSet s1 startupId st st' hst1 rfl
    have hwf2 : InvWF s2 := by
      intro x hx
      rcases List.mem_append.mp hx with hxo | hxn
      · exact Nat.lt_succ_of_lt (hwf x hxo)
      · rw [List.mem_singleton.mp hxn]
        exact Nat.lt_succ_self _
    obtain ⟨sf, stf, hrun, hgf, hcf, hsum⟩ := ih s2 st' hwf2 hst2
    refine ⟨sf, stf, ?_, hgf, ?_, ?_⟩
    · show runInvestments s investorId startupId (tx :: rest) now = .ok sf
      unfold runInvestments
      rw [hstep]
      exact hrun
    · rw [hcf]
      show st.currentFunding + tx.2 + (rest.map Prod.snd).sum
        = st.currentFunding + ((tx :: rest).map Prod.snd).sum
      simp only [List.map_cons, List.sum_cons]
      ring
    · have hrows : getStartupInvestments s2 startupId
          = getStartupInvestments s startupId ++ [inv] := by
        show (s.investments ++ [inv]).filter (fun x => x.startupId == startupId)
          = s.investments.filter (fun x => x.startupId == startupId) ++ [inv]
        rw [List.filter_append]
        simp [hinv]
      rw [hsum, hrows]
      show sumAmounts (getStartupInvestments s startupId ++ [inv])
          + (rest.map Prod.snd).sum
        = sumAmounts (getStartupInvestments s startupId)
          + ((tx :: rest).map Prod.snd).sum
      unfold sumAmounts
      simp only [List.map_append, List.sum_append, List.map_cons,
        List.sum_cons, List.map_nil, List.sum_nil, hinv]
      ring

/-- C1: for every startup and every sequence of investments recorded
through the investment workflow (`createInvestment` followed by
`updateStartupFunding` with that investment's amount), the startup's
`currentFunding` afterwards has grown by the sum of the recorded amounts,
and equals the sum of the amounts of all investments referencing that
startup whenever it did so initially (in particular starting from
`currentFunding = 0` with no prior investments at creation). -/
theorem investment_workflow_funding_sum (s : MemStorage)
    (investorId startupId : Nat) (txs : List (String × Int)) (now : Nat)
    (st : Startup) (hwf : InvWF s) (hst : getStartup s startupId = some st)
    (hinit : st.currentFunding
      = sumAmounts (getStartupInvestments s startupId)) :
    ∃ s' st', runInvestments s investorId startupId txs now = .ok s' ∧
      getStartup s' startupId = some st' ∧
      st'.currentFunding = st.currentFunding + (txs.map Prod.snd).sum ∧
      st'.currentFunding = sumAmounts (getStartupInvestments s' startupId) := by
  obtain ⟨s', st', hrun, hg, hcf, hsum⟩ :=
    runInvestments_spec investorId startupId now txs s st hwf hst
  exact ⟨s', st', hrun, hg, hcf, by rw [hcf, hsum, hinit]⟩

/-- Concrete witness state for C1: a startup created in fresh storage. -/
def c1State : MemStorage :=
  (createStartup emptyMem ⟨7, "Acme", 1000⟩ 5).1

/-- C1 witness: two investments of 40 and 2 against the startup leave
`currentFunding = 42`, the sum of the amounts. -/
theorem investment_workflow_funding_sum_witness :
    ∃ s' st', runInvestments c1State 7 1 [("0xa", 40), ("0xb", 2)] 6
        = .ok s' ∧
      getStartup s' 1 = some st' ∧
      st'.currentFunding = (0 : Int) + [40, 2].sum ∧
      st'.currentFunding = sumAmounts (getStartupInvestments s' 1) := by
  have h := investment_workflow_funding_sum c1State 7 1
    [("0xa", 40), ("0xb", 2)] 6
    ⟨1, 7, "Acme", 1000, 0, 5⟩
    (by intro x hx; simp [c1State, createStartup, emptyMem, mapSet] at hx)
    (by decide) (by decide)
  simpa using h

/-! ## JS string helpers (modelled over the character list) -/

/-- JS `full.startsWith(p)`. -/
def jsStartsWith (full p : String) : Bool :=
  p.toList.isPrefixOf full.toList

/-- JS `s.length` (codepoint count; the ids here are ASCII). -/
def jsLen (s : String) : Nat :=
  s.toList.length

/-! ## `MongoDBStorage` (server/db/mongodb-storage.ts)

A collection is a list of documents; `_id` is a 24-hex-character string;
`Model.find().sort(...)` is modelled by `List.insertionSort` over the
sort key; `findById` is a direct `find?` on the id. -/

/-- Mongo user document (fields the modelled operations touch). -/
structure MUser where
  id : String
  username : String
  email : String
  walletAddress : Option String
  walletConfirmed : Bool
  deriving DecidableEq

/-- Mongo startup document. -/
structure MStartup where
  id : String
  userId : String
  name : String
  currentFunding : Int
  createdAt : Nat
  deriving DecidableEq

/-- Mongo investment document. -/
structure MInvestment where
  id : String
  investorId : String
  startupId : String
  amount : Int
  createdAt : Nat
  deriving DecidableEq

/-- Mongo update document. -/
structure MUpdate where
  id : String
  startupId : String
  title : String
  createdAt : Nat
  deriving DecidableEq

/-- Mongo milestone document. -/
structure MMilestone where
  id : String
  startupId : String
  title : String
  targetDate : Option Nat
  completed : Bool
  createdAt : Nat
  deriving DecidableEq

/-- The document backend state: one collection per entity. -/
structure MongoStorage where
  users : List MUser
  startups : List MStartup
  investments : List MInvestment
  updates : List MUpdate
  milestones : List MMilestone
  deriving DecidableEq

/-- `MongoDBStorage.getUser` (`findById`). -/
def mongoGetUser (s : MongoStorage) (id : String) : Option MUser :=
  s.users.find? (fun u => u.id == id)

/-- `MongoDBStorage.deleteUser` (`findByIdAndDelete`): removes the user
document only; the cascade over related collections is absent in the
source (it appears only as a commented-out suggestion). -/
def mongoDeleteUser (s : MongoStorage) (userId : String) :
    Except String MongoStorage :=
  match mongoGetUser s userId with
  | none => .error ("User with ID " ++ userId ++ " not found")
  | some _ =>
    .ok ({ s with users := s.users.filter (fun u => ! (u.id == userId)) })

/-- `MongoDBStorage.getStartups`: `find().sort(createdAt: -1)`,
newest first. -/
def mongoGetStartups (s : MongoStorage) : List MStartup :=
  List.insertionSort (fun a b => b.createdAt ≤ a.createdAt) s.startups

/-- `MongoDBStorage.getStartup`: a 24-character id is looked up directly;
a shorter (or longer) one is treated as a truncated id and resolved by
scanning the listing for the first id starting with it. -/
def mongoGetStartup (s : MongoStorage) (id : String) : Option MStartup :=
  if jsLen id = 24 then
    s.startups.find? (fun st => st.id == id)
  else
    (mongoGetStartups s).find? (fun st => jsStartsWith st.id id)

/-- `MongoDBStorage.getInvestments`: newest first. -/
def mongoGetInvestments (s : MongoStorage) : List MInvestment :=
  List.insertionSort (fun a b => b.createdAt ≤ a.createdAt) s.investments

/-- `MongoDBStorage.getInvestment`: direct lookup at 24 characters,
first-match scan of the listing otherwise. -/
def mongoGetInvestment (s : MongoStorage) (id : String) : Option MInvestment :=
  if jsLen id = 24 then
    s.investments.find? (fun iv => iv.id == id)
  else
    (mongoGetInvestments s).find? (fun iv => jsStartsWith iv.id id)

/-- `MongoDBStorage.getUpdates`: newest first. -/
def mongoGetUpdates (s : MongoStorage) : List MUpdate :=
  List.insertionSort (fun a b => b.createdAt ≤ a.createdAt) s.updates

/-- BSON ascending order on an optional target date (null sorts first). -/
def targetLe (a b : Option Nat) : Bool :=
  match a, b with
  | none, _ => true
  | some _, none => false
  | some x, some y => x ≤ y

/-- `MongoDBStorage.getMilestones`: `find().sort(targetDate: 1)`,
soonest target date first. -/
def mongoGetMilestones (s : MongoStorage) : List MMilestone :=
  List.insertionSort (fun a b => targetLe a.targetDate b.targetDate = true)
    s.milestones

/-! ## C2: user deletion -/

theorem find?_filter_ne_none [BEq κ] [LawfulBEq κ] (key : α → κ)
    (l : List α) (k : κ) :
    (l.filter (fun x => ! (key x == k))).find? (fun x => key x == k)
      = none := by
  rw [List.find?_eq_none]
  intro x hx
  have hkeep := (List.mem_filter.mp hx).2
  simp only [Bool.not_eq_eq_eq_not, Bool.not_true] at hkeep
  simp [hkeep]

theorem find?_dropped_by_ids (key : α → Nat) (l sel : List α) (a : α)
    (ha : a ∈ sel) :
    (l.filter (fun x => ! sel.any (fun v => key v == key x))).find?
      (fun x => key x == key a) = none := by
  rw [List.find?_eq_none]
  intro x hx hpx
  have hkeep := (List.mem_filter.mp hx).2
  simp only [Bool.not_eq_eq_eq_not, Bool.not_true] at hkeep
  have h2 : sel.any (fun v => key v == key x) = true :=
    List.any_eq_true.mpr ⟨a, ha, beq_iff_eq.mpr (beq_iff_eq.mp hpx).symm⟩
  rw [hkeep] at h2
  exact Bool.false_ne_true h2

theorem filter_self_ids_empty (key : α → Nat) (q : α → Bool) (l : List α) :
    (l.filter
        (fun i => ! (l.filter q).any (fun v => key v == key i))).filter q
      = [] := by
  refine List.filter_eq_nil_iff.mpr ?_
  intro x hx hq
  obtain ⟨hxl, hkeep⟩ := List.mem_filter.mp hx
  simp only [Bool.not_eq_eq_eq_not, Bool.not_true] at hkeep
  have h2 : (l.filter q).any (fun v => key v == key x) = true :=
    List.any_eq_true.mpr ⟨x, List.mem_filter.mpr ⟨hxl, hq⟩, beq_iff_eq.mpr rfl⟩
  rw [hkeep] at h2
  exact Bool.false_ne_true h2

theorem deleteUser_cascades (s : MemStorage) (uid : Nat) (u : User)
    (st : Startup) (hu : getUser s uid = some u)
    (hst : getStartupByUserId s uid = some st) :
    ∃ s', deleteUser s uid = .ok s' ∧
      getUser s' uid = none ∧
      getStartup s' st.id = none ∧
      (∀ up ∈ getStartupUpdates s st.id, getUpdate s' up.id = none) ∧
      (∀ m ∈ getStartupMilestones s st.id, getMilestone s' m.id = none) ∧
      getUserInvestments s' uid = [] := by
  have hu' : mapGet User.id s.users uid = some u := hu
  unfold deleteUser
  rw [show getUser s uid = some u from hu]
  have hst1 : getStartupByUserId
      { s with users := mapDelete User.id s.users uid } uid = some st := hst
  simp only [hst1]
  refine ⟨_, rfl, ?_, ?_, ?_, ?_, ?_⟩
  · show (mapDelete User.id s.users uid).find? (fun x => User.id x == uid)
      = none
    unfold mapDelete
    exact find?_filter_ne_none User.id s.users uid
  · show (mapDelete Startup.id s.startups st.id).find?
      (fun x => Startup.id x == st.id) = none
    unfold mapDelete
    exact find?_filter_ne_none Startup.id s.startups st.id
  · intro up hup
    exact find?_dropped_by_ids Update.id s.updates
      (getStartupUpdates s st.id) up hup
  · intro m hm
    exact find?_dropped_by_ids Milestone.id s.milestones
      (getStartupMilestones s st.id) m hm
  · exact filter_self_ids_empty Investment.id
      (fun i => i.investorId == uid) s.investments

theorem mongoDeleteUser_only_user (ms : MongoStorage) (uid : String)
    (mu : MUser) (hu : mongoGetUser ms uid = some mu) :
    ∃ ms', mongoDeleteUser ms uid = .ok ms' ∧
      mongoGetUser ms' uid = none ∧
      ms'.startups = ms.startups ∧ ms'.investments = ms.investments ∧
      ms'.updates = ms.updates ∧ ms'.milestones = ms.milestones := by
  unfold mongoDeleteUser
  rw [hu]
  exact ⟨_, rfl, find?_filter_ne_none MUser.id ms.users uid,
    rfl, rfl, rfl, rfl⟩

/-- C2 (amended): under the in-memory backend, `deleteUser` on a founder
removes the user, the owned startup, every update and milestone of that
startup, and every investment of the user, and subsequent lookups on all
of them report not-found; under the document backend `deleteUser` removes
only the user document and leaves startups, investments, updates and
milestones untouched, so the cascade does not hold identically for both
backends. -/
theorem deleteUser_cascade_semantics :
    (∀ (s : MemStorage) (uid : Nat) (u : User) (st : Startup),
      getUser s uid = some u → getStartupByUserId s uid = some st →
      ∃ s', deleteUser s uid = .ok s' ∧
        getUser s' uid = none ∧
        getStartup s' st.id = none ∧
        (∀ up ∈ getStartupUpdates s st.id, getUpdate s' up.id = none) ∧
        (∀ m ∈ getStartupMilestones s st.id, getMilestone s' m.id = none) ∧
        getUserInvestments s' uid = []) ∧
    (∀ (ms : MongoStorage) (uid : String) (mu : MUser),
      mongoGetUser ms uid = some mu →
      ∃ ms', mongoDeleteUser ms uid = .ok ms' ∧
        mongoGetUser ms' uid = none ∧
        ms'.startups = ms.startups ∧ ms'.investments = ms.investments ∧
        ms'.updates = ms.updates ∧ ms'.milestones = ms.milestones) :=
  ⟨deleteUser_cascades, mongoDeleteUser_only_user⟩

/-- Founder state for the C2 witness: one founder owning a startup with
one update, one milestone and one investment by the founder. -/
def c2State : MemStorage :=
  ⟨[⟨1, "founder", "pw", "f@x", none, false, "startup", 3⟩],
   [⟨1, 1, "S", 100, 5, 3⟩],
   [⟨1, 1, 1, 5, "0xh", 4⟩],
   [⟨1, 1, "t", "c", 5⟩],
   [⟨1, 1, "m", none, none, false, 6⟩],
   2, 2, 2, 2, 2⟩

/-- C2 witness: deleting the founder of `c2State` wipes the user, the
startup, and leaves no investments by the user, and deleting the lone
user of a one-user document store leaves its startup collection intact. -/
theorem deleteUser_cascade_semantics_witness :
    (∃ s', deleteUser c2State 1 = .ok s' ∧
      getUser s' 1 = none ∧ getStartup s' 1 = none ∧
      getUserInvestments s' 1 = []) ∧
    (∃ ms', mongoDeleteUser
        ⟨[⟨"aaaaaaaaaaaaaaaaaaaaaaaa", "u", "e", none, false⟩],
         [⟨"bbbbbbbbbbbbbbbbbbbbbbbb", "aaaaaaaaaaaaaaaaaaaaaaaa", "S", 0, 1⟩],
         [], [], []⟩ "aaaaaaaaaaaaaaaaaaaaaaaa" = .ok ms' ∧
      ms'.startups
        = [⟨"bbbbbbbbbbbbbbbbbbbbbbbb", "aaaaaaaaaaaaaaaaaaaaaaaa", "S", 0, 1⟩]) := by
  constructor
  · obtain ⟨s', h1, h2, h3, _, _, h6⟩ :=
      deleteUser_cascade_semantics.1 c2State 1
        ⟨1, "founder", "pw", "f@x", none, false, "startup", 3⟩
        ⟨1, 1, "S", 100, 5, 3⟩ (by decide) (by decide)
    exact ⟨s', h1, h2, h3, h6⟩
  · obtain ⟨ms', h1, _, h3, _, _, _⟩ :=
      deleteUser_cascade_semantics.2
        ⟨[⟨"aaaaaaaaaaaaaaaaaaaaaaaa", "u", "e", none, false⟩],
         [⟨"bbbbbbbbbbbbbbbbbbbbbbbb", "aaaaaaaaaaaaaaaaaaaaaaaa", "S", 0, 1⟩],
         [], [], []⟩ "aaaaaaaaaaaaaaaaaaaaaaaa"
        ⟨"aaaaaaaaaaaaaaaaaaaaaaaa", "u", "e", none, false⟩ (by decide)
    exact ⟨ms', h1, h3⟩

/-- Document-backend state falsifying C2 as stated: a founder user and
the startup they own. -/
def c2Mongo : MongoStorage :=
  ⟨[⟨"aaaaaaaaaaaaaaaaaaaaaaaa", "founder", "f@x", none, false⟩],
   [⟨"bbbbbbbbbbbbbbbbbbbbbbbb", "aaaaaaaaaaaaaaaaaaaaaaaa", "S", 7, 1⟩],
   [⟨"cccccccccccccccccccccccc", "aaaaaaaaaaaaaaaaaaaaaaaa",
     "bbbbbbbbbbbbbbbbbbbbbbbb", 7, 2⟩],
   [⟨"dddddddddddddddddddddddd", "bbbbbbbbbbbbbbbbbbbbbbbb", "t", 3⟩],
   [⟨"eeeeeeeeeeeeeeeeeeeeeeee", "bbbbbbbbbbbbbbbbbbbbbbbb", "m",
     none, false, 4⟩]⟩

/-- C2 counterexample: on the document backend, deleting the founder
succeeds but the owned startup is still returned by the lookup afterwards
(the claim as stated requires it to be not-found on both backends). -/
theorem deleteUser_cascade_counterexample :
    ∃ t, mongoDeleteUser c2Mongo "aaaaaaaaaaaaaaaaaaaaaaaa" = .ok t ∧
      ¬ (mongoGetStartup t "bbbbbbbbbbbbbbbbbbbbbbbb" = none) := by
  refine ⟨⟨[], c2Mongo.startups, c2Mongo.investments, c2Mongo.updates,
    c2Mongo.milestones⟩, rfl, by decide⟩

/-! ## C5: listing order of the two backends -/

theorem targetLe_total (a b : Option Nat) :
    targetLe a b = true ∨ targetLe b a = true := by
  cases a with
  | none => exact Or.inl rfl
  | some x =>
    cases b with
    | none => exact Or.inr rfl
    | some y =>
      rcases Nat.le_total x y with h | h
      · exact Or.inl (by simpa [targetLe] using h)
      · exact Or.inr (by simpa [targetLe] using h)

theorem targetLe_trans (a b c : Option Nat) (hab : targetLe a b = true)
    (hbc : targetLe b c = true) : targetLe a c = true := by
  cases a with
  | none => rfl
  | some x =>
    cases b with
    | none => exact absurd hab (by simp [targetLe])
    | some y =>
      cases c with
      | none => exact absurd hbc (by simp [targetLe])
      | some z =>
        simp only [targetLe, decide_eq_true_eq] at *
        omega

/-- C5 (amended): the document backend lists startups, investments and
updates newest-first by creation time and milestones soonest-target-date
first (each listing a permutation of the stored rows), while the
in-memory backend returns each collection in insertion order, unsorted —
the two backends do not return the same ordering. -/
theorem listing_order_semantics :
    (∀ ms : MongoStorage,
      List.Sorted (fun a b : MStartup => b.createdAt ≤ a.createdAt)
        (mongoGetStartups ms) ∧
      (mongoGetStartups ms).Perm ms.startups ∧
      List.Sorted (fun a b : MInvestment => b.createdAt ≤ a.createdAt)
        (mongoGetInvestments ms) ∧
      (mongoGetInvestments ms).Perm ms.investments ∧
      List.Sorted (fun a b : MUpdate => b.createdAt ≤ a.createdAt)
        (mongoGetUpdates ms) ∧
      (mongoGetUpdates ms).Perm ms.updates ∧
      List.Sorted (fun a b : MMilestone =>
        targetLe a.targetDate b.targetDate = true) (mongoGetMilestones ms) ∧
      (mongoGetMilestones ms).Perm ms.milestones) ∧
    (∀ t : MemStorage,
      getStartups t = t.startups ∧ getInvestments t = t.investments ∧
      getUpdates t = t.updates ∧ getMilestones t = t.milestones) := by
  constructor
  · intro ms
    haveI h1 : IsTotal MStartup (fun a b => b.createdAt ≤ a.createdAt) :=
      ⟨fun a b => Nat.le_total b.createdAt a.createdAt⟩
    haveI h2 : IsTrans MStartup (fun a b => b.createdAt ≤ a.createdAt) :=
      ⟨fun _ _ _ hab hbc => Nat.le_trans hbc hab⟩
    haveI h3 : IsTotal MInvestment (fun a b => b.createdAt ≤ a.createdAt) :=
      ⟨fun a b => Nat.le_total b.createdAt a.createdAt⟩
    haveI h4 : IsTrans MInvestment (fun a b => b.createdAt ≤ a.createdAt) :=
      ⟨fun _ _ _ hab hbc => Nat.le_trans hbc hab⟩
    haveI h5 : IsTotal MUpdate (fun a b => b.createdAt ≤ a.createdAt) :=
      ⟨fun a b => Nat.le_total b.createdAt a.createdAt⟩
    haveI h6 : IsTrans MUpdate (fun a b => b.createdAt ≤ a.createdAt) :=
      ⟨fun _ _ _ hab hbc => Nat.le_trans hbc hab⟩
    haveI h7 : IsTotal MMilestone
        (fun a b => targetLe a.targetDate b.targetDate = true) :=
      ⟨fun a b => targetLe_total a.targetDate b.targetDate⟩
    haveI h8 : IsTrans MMilestone
        (fun a b => targetLe a.targetDate b.targetDate = true) :=
      ⟨fun _ _ _ hab hbc => targetLe_trans _ _ _ hab hbc⟩
    exact ⟨List.sorted_insertionSort _ _, List.perm_insertionSort _ _,
      List.sorted_insertionSort _ _, List.perm_insertionSort _ _,
      List.sorted_insertionSort _ _, List.perm_insertionSort _ _,
      List.sorted_insertionSort _ _, List.perm_insertionSort _ _⟩
  · intro t
    exact ⟨rfl, rfl, rfl, rfl⟩

/-- In-memory state falsifying C5 as stated: two startups inserted in
creation order, so the listing is oldest-first, not newest-first. -/
def c5State : MemStorage :=
  ⟨[], [⟨1, 1, "A", 10, 0, 1⟩, ⟨2, 2, "B", 10, 0, 2⟩], [], [], [],
   1, 3, 1, 1, 1⟩

/-- C5 counterexample: the in-memory backend's `getStartups` is not
sorted newest-first by creation time (the second-created startup is
listed second), so the two backends do not return the same ordering. -/
theorem listing_order_counterexample :
    ¬ List.Sorted (fun a b : Startup => b.createdAt ≤ a.createdAt)
      (getStartups c5State) := by
  decide

/-! ## C6: short-identifier scan on the document backend -/

/-- C6: under the document backend, a lookup with an identifier shorter
than 24 characters scans the collection listing and returns its first
entity whose id starts with the given string; any returned entity is a
stored row whose id starts with it, and when no stored id starts with it
the lookup reports not-found. -/
theorem short_id_scan_semantics (ms : MongoStorage) (idStr : String)
    (hshort : jsLen idStr < 24) :
    (mongoGetStartup ms idStr
      = (mongoGetStartups ms).find? (fun st => jsStartsWith st.id idStr)) ∧
    (∀ st, mongoGetStartup ms idStr = some st →
      st ∈ ms.startups ∧ jsStartsWith st.id idStr = true) ∧
    ((∀ st ∈ ms.startups, jsStartsWith st.id idStr = false) →
      mongoGetStartup ms idStr = none) ∧
    (mongoGetInvestment ms idStr
      = (mongoGetInvestments ms).find? (fun iv => jsStartsWith iv.id idStr)) ∧
    (∀ iv, mongoGetInvestment ms idStr = some iv →
      iv ∈ ms.investments ∧ jsStartsWith iv.id idStr = true) ∧
    ((∀ iv ∈ ms.investments, jsStartsWith iv.id idStr = false) →
      mongoGetInvestment ms idStr = none) := by
  have hne : ¬ (jsLen idStr = 24) := Nat.ne_of_lt hshort
  have hs : mongoGetStartup ms idStr
      = (mongoGetStartups ms).find? (fun st => jsStartsWith st.id idStr) := by
    unfold mongoGetStartup
    rw [if_neg hne]
  have hi : mongoGetInvestment ms idStr
      = (mongoGetInvestments ms).find? (fun iv => jsStartsWith iv.id idStr) := by
    unfold mongoGetInvestment
    rw [if_neg hne]
  refine ⟨hs, ?_, ?_, hi, ?_, ?_⟩
  · intro st hfind
    rw [hs] at hfind
    exact ⟨(List.perm_insertionSort _ _).mem_iff.mp
        (List.mem_of_find?_eq_some hfind),
      List.find?_some (p := fun st : MStartup => jsStartsWith st.id idStr) hfind⟩
  · intro hnone
    rw [hs, List.find?_eq_none]
    intro st hmem
    rw [hnone st ((List.perm_insertionSort _ _).mem_iff.mp hmem)]
    exact Bool.false_ne_true
  · intro iv hfind
    rw [hi] at hfind
    exact ⟨(List.perm_insertionSort _ _).mem_iff.mp
        (List.mem_of_find?_eq_some hfind),
      List.find?_some (p := fun iv : MInvestment => jsStartsWith iv.id idStr) hfind⟩
  · intro hnone
    rw [hi, List.find?_eq_none]
    intro iv hmem
    rw [hnone iv ((List.perm_insertionSort _ _).mem_iff.mp hmem)]
    exact Bool.false_ne_true

/-- C6 witness at a concrete store: the 4-character lookup "bbbb"
resolves by scan to the stored startup, and a prefixless lookup "zzzz"
reports not-found. -/
theorem short_id_scan_semantics_witness :
    mongoGetStartup c2Mongo "bbbb"
      = some ⟨"bbbbbbbbbbbbbbbbbbbbbbbb", "aaaaaaaaaaaaaaaaaaaaaaaa",
          "S", 7, 1⟩ ∧
    mongoGetStartup c2Mongo "zzzz" = none := by
  constructor
  · have h := (short_id_scan_semantics c2Mongo "bbbb" (by decide)).1
    rw [h]
    decide
  · exact (short_id_scan_semantics c2Mongo "zzzz" (by decide)).2.2.1
      (by decide)

/-! ## C4: the wallet-confirmation latch -/

/-- Well-formedness of user ids: every stored id is below the counter. -/
def UserWF (s : MemStorage) : Prop :=
  ∀ u ∈ s.users, u.id < s.userIdCounter

/-- Every mutating operation of the in-memory backend, with its
arguments. -/
inductive MemOp
  | opCreateUser (ins : InsertUser) (now : Nat)
  | opUpdateUserEmail (uid : Nat) (email : String)
  | opUpdateUserPassword (uid : Nat) (pw : String)
  | opUpdateUserWallet (uid : Nat) (addr : String)
  | opConfirmUserWallet (uid : Nat) (addr : String)
  | opDeleteUser (uid : Nat)
  | opCreateStartup (ins : InsertStartup) (now : Nat)
  | opUpdateStartupFunding (sid : Nat) (amt : Int)
  | opClearStartups
  | opCreateInvestment (ins : InsertInvestment) (now : Nat)
  | opCreateUpdate (ins : InsertUpdate) (now : Nat)
  | opCreateMilestone (ins : InsertMilestone) (now : Nat)
  | opUpdateMilestoneStatus (mid : Nat) (c : Bool)

/-- Run one operation; a thrown error leaves the storage unchanged. -/
def applyOp (s : MemStorage) : MemOp → MemStorage
  | .opCreateUser ins now =>
    match createUser s ins now with
    | .ok p => p.1
    | .error _ => s
  | .opUpdateUserEmail uid email =>
    match updateUserEmail s uid email with
    | .ok p => p.1
    | .error _ => s
  | .opUpdateUserPassword uid pw =>
    match updateUserPassword s uid pw with
    | .ok p => p.1
    | .error _ => s
  | .opUpdateUserWallet uid addr =>
    match updateUserWalletAddress s uid addr with
    | .ok p => p.1
    | .error _ => s
  | .opConfirmUserWallet uid addr =>
    match confirmUserWalletAddress s uid addr with
    | .ok p => p.1
    | .error _ => s
  | .opDeleteUser uid =>
    match deleteUser s uid with
    | .ok t => t
    | .error _ => s
  | .opCreateStartup ins now => (createStartup s ins now).1
  | .opUpdateStartupFunding sid amt =>
    match updateStartupFunding s sid amt with
    | .ok p => p.1
    | .error _ => s
  | .opClearStartups => clearStartups s
  | .opCreateInvestment ins now => (createInvestment s ins now).1
  | .opCreateUpdate ins now => (createUpdate s ins now).1
  | .opCreateMilestone ins now => (createMilestone s ins now).1
  | .opUpdateMilestoneStatus mid c =>
    match updateMilestoneStatus s mid c with
    | .ok p => p.1
    | .error _ => s

/-- Run a sequence of operations. -/
def applyOps (s : MemStorage) (ops : List MemOp) : MemStorage :=
  ops.foldl applyOp s

/-- The latch invariant over the user table and its id counter: ids are
bounded by the counter, the latched id is below the counter, and any
lookup of the latched id yields a confirmed user at wallet address `w`. -/
def ConfirmedUsers (us : List User) (c : Nat) (uid : Nat)
    (w : Option String) : Prop :=
  (∀ u ∈ us, u.id < c) ∧ uid < c ∧
  ∀ u, us.find? (fun x => x.id == uid) = some u →
    u.walletConfirmed = true ∧ u.walletAddress = w

/-- The latch invariant on a storage state. -/
def ConfirmedAt (s : MemStorage) (uid : Nat) (w : Option String) : Prop :=
  ConfirmedUsers s.users s.userIdCounter uid w

theorem find?_map_replace_ne (key : α → Nat) (k uid : Nat) (v : α)
    (hv : key v = k) (hne : ¬ (k = uid)) :
    ∀ l : List α,
      (l.map (fun x => if key x == k then v else x)).find?
        (fun x => key x == uid) = l.find? (fun x => key x == uid) := by
  intro l
  induction l with
  | nil => rfl
  | cons a as ih =>
    by_cases ha : (key a == k) = true
    · have hak : key a = k := beq_iff_eq.mp ha
      have h1 : ((fun x => key x == uid) v) = false := by
        simp [hv, hne]
      have h2 : ((fun x => key x == uid) a) = false := by
        simp [hak, hne]
      simp only [List.map_cons, if_pos ha]
      rw [List.find?_cons_of_neg _ (by simp [h1]),
        List.find?_cons_of_neg _ (by simp [h2])]
      exact ih
    · simp only [List.map_cons, if_neg ha]
      by_cases hu : (key a == uid) = true
      · rw [List.find?_cons_of_pos (p := fun x => key x == uid) _ hu,
          List.find?_cons_of_pos (p := fun x => key x == uid) _ hu]
      · rw [List.find?_cons_of_neg (p := fun x => key x == uid) _ hu,
          List.find?_cons_of_neg (p := fun x => key x == uid) _ hu]
        exact ih

theorem find?_append_single_of_neg (p : α → Bool) (v : α) (hv : p v = false) :
    ∀ l : List α, (l ++ [v]).find? p = l.find? p := by
  intro l
  induction l with
  | nil =>
    show List.find? p [v] = none
    rw [List.find?_cons_of_neg _ (by simp [hv])]
    rfl
  | cons a as ih =>
    by_cases ha : p a = true
    · rw [List.cons_append, List.find?_cons_of_pos _ ha,
        List.find?_cons_of_pos _ ha]
    · rw [List.cons_append, List.find?_cons_of_neg _ ha,
        List.find?_cons_of_neg _ ha]
      exact ih

theorem find?_mapSet_ne (key : α → Nat) (l : List α) (k : Nat) (v : α)
    (hv : key v = k) (uid : Nat) (hne : ¬ (k = uid)) :
    (mapSet key l k v).find? (fun x => key x == uid)
      = l.find? (fun x => key x == uid) := by
  unfold mapSet
  by_cases hany : l.any (fun x => key x == k) = true
  · rw [if_pos hany]
    exact find?_map_replace_ne key k uid v hv hne l
  · rw [if_neg hany]
    exact find?_append_single_of_neg _ v (by simp [hv, hne]) l

theorem find?_filter_key_ne (key : α → Nat) (k uid : Nat) (hne : ¬ (k = uid)) :
    ∀ l : List α,
      (l.filter (fun x => ! (key x == k))).find? (fun x => key x == uid)
        = l.find? (fun x => key x == uid) := by
  intro l
  induction l with
  | nil => rfl
  | cons a as ih =>
    by_cases ha : (key a == k) = true
    · have hak : key a = k := beq_iff_eq.mp ha
      rw [List.filter_cons_of_neg (by simp [ha]),
        List.find?_cons_of_neg _ (by simp [hak, hne])]
      exact ih
    · rw [List.filter_cons_of_pos (by simp [ha])]
      by_cases hu : (key a == uid) = true
      · rw [List.find?_cons_of_pos (p := fun x => key x == uid) _ hu,
          List.find?_cons_of_pos (p := fun x => key x == uid) _ hu]
      · rw [List.find?_cons_of_neg (p := fun x => key x == uid) _ hu,
          List.find?_cons_of_neg (p := fun x => key x == uid) _ hu]
        exact ih

theorem userWF_mapSet (us : List User) (c : Nat) (v : Nat) (f : User)
    (hwf : ∀ u ∈ us, u.id < c) (hid : f.id < c) :
    ∀ x ∈ mapSet User.id us v f, x.id < c := by
  intro x hx
  unfold mapSet at hx
  split at hx
  · obtain ⟨y, hy, hxy⟩ := List.mem_map.mp hx
    by_cases hyk : (User.id y == v) = true
    · rw [if_pos hyk] at hxy
      exact hxy ▸ hid
    · rw [if_neg hyk] at hxy
      exact hxy ▸ hwf y hy
  · rcases List.mem_append.mp hx with h1 | h1
    · exact hwf x h1
    · rw [List.mem_singleton.mp h1]
      exact hid

/-- Updating a user in place with the same confirmation flag and wallet
address preserves the latch. -/
theorem confirmedUsers_mapSet_same_flags (us : List User) (c uid v : Nat)
    (w : Option String) (user f : User)
    (hfound : us.find? (fun x => x.id == v) = some user)
    (hid : f.id = user.id)
    (hcf : f.walletConfirmed = user.walletConfirmed)
    (haddr : f.walletAddress = user.walletAddress)
    (h : ConfirmedUsers us c uid w) :
    ConfirmedUsers (mapSet User.id us v f) c uid w := by
  obtain ⟨hwf, hlt, hconf⟩ := h
  have hkey : User.id user = v :=
    beq_iff_eq.mp (List.find?_some (p := fun x : User => x.id == v) hfound)
  have hfid : f.id = v := hid.trans hkey
  refine ⟨userWF_mapSet us c v f hwf
    (hid ▸ hwf user (List.mem_of_find?_eq_some hfound)), hlt, ?_⟩
  intro u hu
  by_cases hveq : v = uid
  · subst hveq
    have : (mapSet User.id us v f).find? (fun x => User.id x == v)
        = some f :=
      find?_mapSet_self User.id us v f hfid (by rw [hfound]; rfl)
    rw [this] at hu
    obtain ⟨hc1, hc2⟩ := hconf user hfound
    cases hu
    exact ⟨hcf.trans hc1, haddr.trans hc2⟩
  · rw [find?_mapSet_ne User.id us v f hfid uid hveq] at hu
    exact hconf u hu

/-- Updating a user stored at a different id preserves the latch
regardless of the new field values. -/
theorem confirmedUsers_mapSet_other (us : List User) (c uid v : Nat)
    (w : Option String) (f : User) (hfid : f.id = v) (hflt : f.id < c)
    (hne : ¬ (v = uid)) (h : ConfirmedUsers us c uid w) :
    ConfirmedUsers (mapSet User.id us v f) c uid w := by
  obtain ⟨hwf, hlt, hconf⟩ := h
  refine ⟨userWF_mapSet us c v f hwf hflt, hlt, ?_⟩
  intro u hu
  rw [find?_mapSet_ne User.id us v f hfid uid hne] at hu
  exact hconf u hu

/-- Appending a fresh user at the counter id preserves the latch with the
counter advanced. -/
theorem confirmedUsers_mapSet_fresh (us : List User) (c uid : Nat)
    (w : Option String) (f : User) (hfid : f.id = c)
    (h : ConfirmedUsers us c uid w) :
    ConfirmedUsers (mapSet User.id us c f) (c + 1) uid w := by
  obtain ⟨hwf, hlt, hconf⟩ := h
  have happ : mapSet User.id us c f = us ++ [f] :=
    mapSet_append User.id us c f (fun x hx => Nat.ne_of_lt (hwf x hx))
  rw [happ]
  refine ⟨?_, Nat.lt_succ_of_lt hlt, ?_⟩
  · intro x hx
    rcases List.mem_append.mp hx with h1 | h1
    · exact Nat.lt_succ_of_lt (hwf x h1)
    · rw [List.mem_singleton.mp h1, hfid]
      exact Nat.lt_succ_self c
  · intro u hu
    rw [find?_append_single_of_neg _ f
      (by simp [hfid]; exact Nat.ne_of_gt hlt) us] at hu
    exact hconf u hu

/-- Deleting any user preserves the latch. -/
theorem confirmedUsers_mapDelete (us : List User) (c uid v : Nat)
    (w : Option String) (h : ConfirmedUsers us c uid w) :
    ConfirmedUsers (mapDelete User.id us v) c uid w := by
  obtain ⟨hwf, hlt, hconf⟩ := h
  refine ⟨fun x hx => hwf x (List.mem_of_mem_filter hx), hlt, ?_⟩
  intro u hu
  by_cases hveq : v = uid
  · subst hveq
    rw [show mapDelete User.id us v
        = us.filter (fun x => ! (User.id x == v)) from rfl] at hu
    rw [find?_filter_ne_none User.id us v] at hu
    cases hu
  · rw [show mapDelete User.id us v
        = us.filter (fun x => ! (User.id x == v)) from rfl] at hu
    rw [find?_filter_key_ne User.id v uid hveq us] at hu
    exact hconf u hu

theorem confirmedAt_congr (s s' : MemStorage) (uid : Nat) (w : Option String)
    (hu : s'.users = s.users) (hc : s'.userIdCounter = s.userIdCounter)
    (h : ConfirmedAt s uid w) : ConfirmedAt s' uid w := by
  unfold ConfirmedAt
  rw [hu, hc]
  exact h

theorem confirmedAt_applyOp (s : MemStorage) (uid : Nat) (w : Option String)
    (op : MemOp) (h : ConfirmedAt s uid w) :
    ConfirmedAt (applyOp s op) uid w := by
  cases op with
  | opCreateUser ins now =>
    by_cases hcf : (s.users.any (fun u =>
        u.walletAddress == ins.walletAddress && ins.walletAddress.isSome))
        = true
    · have heq : applyOp s (.opCreateUser ins now) = s := by
        simp [applyOp, createUser, hcf]
      rw [heq]
      exact h
    · have heq : applyOp s (.opCreateUser ins now)
          = { s with
              users := mapSet User.id s.users s.userIdCounter
                  (⟨s.userIdCounter, ins.username, ins.password, ins.email,
                    ins.walletAddress, false, ins.userType, now⟩ : User),
              userIdCounter := s.userIdCounter + 1 } := by
        simp [applyOp, createUser, hcf]
      rw [heq]
      exact confirmedUsers_mapSet_fresh s.users s.userIdCounter uid w _ rfl h
  | opUpdateUserEmail v email =>
    cases hg : getUser s v with
    | none =>
      have heq : applyOp s (.opUpdateUserEmail v email) = s := by
        simp [applyOp, updateUserEmail, hg]
      rw [heq]
      exact h
    | some user =>
      by_cases hcf : (s.users.any (fun u => u.email == email && ! (u.id == v)))
          = true
      · have heq : applyOp s (.opUpdateUserEmail v email) = s := by
          simp [applyOp, updateUserEmail, hg, hcf]
        rw [heq]
        exact h
      · have heq : applyOp s (.opUpdateUserEmail v email)
            = { s with users := (mapSet User.id s.users v
                  ({ user with email := email })) } := by
          simp [applyOp, updateUserEmail, hg, hcf]
        rw [heq]
        exact confirmedUsers_mapSet_same_flags s.users s.userIdCounter uid v w
          user _ hg rfl rfl rfl h
  | opUpdateUserPassword v pw =>
    cases hg : getUser s v with
    | none =>
      have heq : applyOp s (.opUpdateUserPassword v pw) = s := by
        simp [applyOp, updateUserPassword, hg]
      rw [heq]
      exact h
    | some user =>
      have heq : applyOp s (.opUpdateUserPassword v pw)
          = { s with users := (mapSet User.id s.users v
                ({ user with password := pw })) } := by
        simp [applyOp, updateUserPassword, hg]
      rw [heq]
      exact confirmedUsers_mapSet_same_flags s.users s.userIdCounter uid v w
        user _ hg rfl rfl rfl h
  | opUpdateUserWallet v addr =>
    cases hg : getUser s v with
    | none =>
      have heq : applyOp s (.opUpdateUserWallet v addr) = s := by
        simp [applyOp, updateUserWalletAddress, hg]
      rw [heq]
      exact h
    | some user =>
      by_cases hcf : user.walletConfirmed = true
      · have heq : applyOp s (.opUpdateUserWallet v addr) = s := by
          simp [applyOp, updateUserWalletAddress, hg, hcf]
        rw [heq]
        exact h
      · by_cases hbusy : (s.users.any (fun u =>
            u.walletAddress == some addr && ! (u.id == v))) = true
        · have heq : applyOp s (.opUpdateUserWallet v addr) = s := by
            simp [applyOp, updateUserWalletAddress, hg, hcf, hbusy]
          rw [heq]
          exact h
        · by_cases hveq : v = uid
          · exfalso
            subst hveq
            exact hcf (h.2.2 user hg).1
          · have heq : applyOp s (.opUpdateUserWallet v addr)
                = { s with users := (mapSet User.id s.users v
                      ({ user with walletAddress := some addr })) } := by
              simp [applyOp, updateUserWalletAddress, hg, hcf, hbusy]
            rw [heq]
            have hukey : user.id = v :=
              beq_iff_eq.mp (List.find?_some (p := fun x : User => x.id == v) hg)
            exact confirmedUsers_mapSet_other s.users s.userIdCounter uid v w _
              hukey (hukey ▸ h.1 user (List.mem_of_find?_eq_some hg)) hveq h
  | opConfirmUserWallet v addr =>
    cases hg : getUser s v with
    | none =>
      have heq : applyOp s (.opConfirmUserWallet v addr) = s := by
        simp [applyOp, confirmUserWalletAddress, hg]
      rw [heq]
      exact h
    | some user =>
      by_cases hmis : (user.walletAddress == some addr) = true
      · by_cases hcf : user.walletConfirmed = true
        · have heq : applyOp s (.opConfirmUserWallet v addr) = s := by
            simp [applyOp, confirmUserWalletAddress, hg, hmis, hcf]
          rw [heq]
          exact h
        · by_cases hveq : v = uid
          · exfalso
            subst hveq
            exact hcf (h.2.2 user hg).1
          · have heq : applyOp s (.opConfirmUserWallet v addr)
                = { s with users := (mapSet User.id s.users v
                      ({ user with walletConfirmed := true })) } := by
              simp [applyOp, confirmUserWalletAddress, hg, hmis, hcf]
            rw [heq]
            have hukey : user.id = v :=
              beq_iff_eq.mp (List.find?_some (p := fun x : User => x.id == v) hg)
            exact confirmedUsers_mapSet_other s.users s.userIdCounter uid v w _
              hukey (hukey ▸ h.1 user (List.mem_of_find?_eq_some hg)) hveq h
      · have heq : applyOp s (.opConfirmUserWallet v addr) = s := by
          simp [applyOp, confirmUserWalletAddress, hg, hmis]
        rw [heq]
        exact h
  | opDeleteUser v =>
    cases hg : getUser s v with
    | none =>
      have heq : applyOp s (.opDeleteUser v) = s := by
        simp [applyOp, deleteUser, hg]
      rw [heq]
      exact h
    | some user =>
      have hfields : (applyOp s (.opDeleteUser v)).users
            = mapDelete User.id s.users v ∧
          (applyOp s (.opDeleteUser v)).userIdCounter = s.userIdCounter := by
        simp only [applyOp, deleteUser, hg]
        cases hsb : getStartupByUserId
            { s with users := mapDelete User.id s.users v } v with
        | none => simp [hsb]
        | some st => simp [hsb]
      show ConfirmedUsers (applyOp s (.opDeleteUser v)).users
        (applyOp s (.opDeleteUser v)).userIdCounter uid w
      rw [hfields.1, hfields.2]
      exact confirmedUsers_mapDelete s.users s.userIdCounter uid v w h
  | opCreateStartup ins now =>
    exact confirmedAt_congr s _ uid w rfl rfl h
  | opUpdateStartupFunding sid amt =>
    cases hg : getStartup s sid with
    | none =>
      have heq : applyOp s (.opUpdateStartupFunding sid amt) = s := by
        simp [applyOp, updateStartupFunding, hg]
      rw [heq]
      exact h
    | some st =>
      have heq : applyOp s (.opUpdateStartupFunding sid amt)
          = { s with startups := (mapSet Startup.id s.startups sid
                ({ st with currentFunding := st.currentFunding + amt })) } := by
        simp [applyOp, updateStartupFunding, hg]
      rw [heq]
      exact confirmedAt_congr s _ uid w rfl rfl h
  | opClearStartups =>
    exact confirmedAt_congr s _ uid w rfl rfl h
  | opCreateInvestment ins now =>
    exact confirmedAt_congr s _ uid w rfl rfl h
  | opCreateUpdate ins now =>
    exact confirmedAt_congr s _ uid w rfl rfl h
  | opCreateMilestone ins now =>
    exact confirmedAt_congr s _ uid w rfl rfl h
  | opUpdateMilestoneStatus mid c =>
    cases hg : getMilestone s mid with
    | none =>
      have heq : applyOp s (.opUpdateMilestoneStatus mid c) = s := by
        simp [applyOp, updateMilestoneStatus, hg]
      rw [heq]
      exact h
    | some m =>
      have heq : applyOp s (.opUpdateMilestoneStatus mid c)
          = { s with milestones := (mapSet Milestone.id s.milestones mid
                ({ m with completed := c })) } := by
        simp [applyOp, updateMilestoneStatus, hg]
      rw [heq]
      exact confirmedAt_congr s _ uid w rfl rfl h

theorem confirmedAt_applyOps (uid : Nat) (w : Option String)
    (ops : List MemOp) :
    ∀ s, ConfirmedAt s uid w → ConfirmedAt (applyOps s ops) uid w := by
  induction ops with
  | nil => intro s h; exact h
  | cons op rest ih =>
    intro s h
    exact ih (applyOp s op) (confirmedAt_applyOp s uid w op h)

/-- C4: `confirmUserWalletAddress` fails with the mismatch error when the
given address differs from the stored one, fails with the conflict error
when the wallet is already confirmed, and otherwise sets
`walletConfirmed`; once confirmed, after any sequence of operations the
user (while still present) remains confirmed with the same address, and
every subsequent `updateUserWalletAddress` call fails with the conflict
error. -/
theorem wallet_confirm_latch (s : MemStorage) (uid : Nat) (u : User)
    (addr : String) (hu : getUser s uid = some u) :
    (¬ (u.walletAddress = some addr) →
      confirmUserWalletAddress s uid addr
        = .error ("Wallet address does not match the stored address")) ∧
    (u.walletAddress = some addr → u.walletConfirmed = true →
      confirmUserWalletAddress s uid addr
        = .error ("Wallet address has already been confirmed")) ∧
    (u.walletAddress = some addr → u.walletConfirmed = false →
      ∃ s', confirmUserWalletAddress s uid addr
          = .ok (s', { u with walletConfirmed := true }) ∧
        getUser s' uid = some ({ u with walletConfirmed := true })) ∧
    (u.walletConfirmed = true → UserWF s →
      ∀ (ops : List MemOp) (u' : User),
        getUser (applyOps s ops) uid = some u' →
        u'.walletConfirmed = true ∧ u'.walletAddress = u.walletAddress ∧
        ∀ a2 : String,
          updateUserWalletAddress (applyOps s ops) uid a2
            = .error
              ("Wallet address has already been confirmed and cannot be changed")) := by
  have hukey : u.id = uid :=
    beq_iff_eq.mp (List.find?_some (p := fun x : User => x.id == uid) hu)
  refine ⟨?_, ?_, ?_, ?_⟩
  · intro h1
    simp [confirmUserWalletAddress, hu, h1]
  · intro h1 h2
    simp [confirmUserWalletAddress, hu, h1, h2]
  · intro h1 h2
    have heq : confirmUserWalletAddress s uid addr
        = .ok ({ s with
              users := mapSet User.id s.users uid
                  ({ u with walletConfirmed := true }) },
            { u with walletConfirmed := true }) := by
      simp [confirmUserWalletAddress, hu, h1, h2]
    refine ⟨_, heq, ?_⟩
    exact find?_mapSet_self User.id s.users uid _ hukey
      (by rw [show s.users.find? (fun x => User.id x == uid) = some u from hu]
          rfl)
  · intro hcf hwf ops u' hfind
    have hlatch : ConfirmedAt s uid u.walletAddress := by
      refine ⟨hwf, hukey ▸ hwf u (List.mem_of_find?_eq_some hu), ?_⟩
      intro x hx
      have hxu : x = u := Option.some.inj (hx.symm.trans hu)
      subst hxu
      exact ⟨hcf, rfl⟩
    obtain ⟨hwf2, hlt2, hconf2⟩ := confirmedAt_applyOps uid u.walletAddress ops s hlatch
    have hcc := hconf2 u' hfind
    refine ⟨hcc.1, hcc.2, ?_⟩
    intro a2
    simp [updateUserWalletAddress, hfind, hcc.1]

/-- Unconfirmed user with a stored wallet address, for the C4 witness. -/
def c4User : User := ⟨1, "inv", "pw", "i@x", some "0xw", false, "investor", 1⟩

/-- Storage holding `c4User`. -/
def c4State : MemStorage := ⟨[c4User], [], [], [], [], 2, 1, 1, 1, 1⟩

/-- The confirmed counterpart of `c4User`. -/
def c4ConfUser : User := ⟨1, "inv", "pw", "i@x", some "0xw", true, "investor", 1⟩

/-- Storage holding `c4ConfUser`. -/
def c4Confirmed : MemStorage := ⟨[c4ConfUser], [], [], [], [], 2, 1, 1, 1, 1⟩

/-- C4 witness: mismatch on a wrong address, conflict on an already
confirmed wallet, successful confirmation on a matching unconfirmed
wallet, and the conflict on `updateUserWalletAddress` after a later
email update. -/
theorem wallet_confirm_latch_witness :
    (confirmUserWalletAddress c4State 1 "0xz"
      = .error ("Wallet address does not match the stored address")) ∧
    (confirmUserWalletAddress c4Confirmed 1 "0xw"
      = .error ("Wallet address has already been confirmed")) ∧
    (∃ s', confirmUserWalletAddress c4State 1 "0xw"
        = .ok (s', ({ c4User with walletConfirmed := true })) ∧
      getUser s' 1 = some ({ c4User with walletConfirmed := true })) ∧
    (updateUserWalletAddress
        (applyOps c4Confirmed [.opUpdateUserEmail 1 "n@x"]) 1 "0xq"
      = .error
        ("Wallet address has already been confirmed and cannot be changed")) := by
  refine ⟨?_, ?_, ?_, ?_⟩
  · exact (wallet_confirm_latch c4State 1 c4User "0xz" rfl).1 (by decide)
  · exact (wallet_confirm_latch c4Confirmed 1 c4ConfUser "0xw" rfl).2.1 rfl rfl
  · exact (wallet_confirm_latch c4State 1 c4User "0xw" rfl).2.2.1 rfl rfl
  · exact ((wallet_confirm_latch c4Confirmed 1 c4ConfUser "0xw" rfl).2.2.2
      rfl (by unfold UserWF; decide) [.opUpdateUserEmail 1 "n@x"]
      (⟨1, "inv", "pw", "n@x", some "0xw", true, "investor", 1⟩ : User)
      (by decide)).2.2 "0xq"

/-! ## Wallet client: minor-unit conversion
(client/src/hooks/use-metamask.tsx)

JS strings are modelled over `List Char`; `BigInt` on a digit string is
`digitsVal` (it is faithful on digit-only strings, the domain the claims
quantify over; on other strings the source `BigInt` throws into a
fallback path that is outside that domain). -/

/-- JS `s.split(".")`, accumulator-based. -/
def splitDotAux : List Char → List Char → List (List Char)
  | [], acc => [acc.reverse]
  | c :: cs, acc =>
    if c = '.' then acc.reverse :: splitDotAux cs []
    else splitDotAux cs (c :: acc)

/-- JS `s.split(".")`. -/
def jsSplitDot (s : String) : List (List Char) :=
  splitDotAux s.toList []

/-- JS `BigInt(str)` on a digit string (the empty string is 0). -/
def digitsVal (l : List Char) : Nat :=
  l.foldl (fun n c => n * 10 + (c.toNat - 48)) 0

/-- JS `str.padEnd(18, "0")`. -/
def padEnd18 (l : List Char) : List Char :=
  l ++ List.replicate (18 - l.length) '0'

/-- JS `str.slice(0, 18)`. -/
def slice18 (l : List Char) : List Char :=
  l.take 18

/-- JS `"0".repeat(18)`. -/
def zeros18 : List Char :=
  List.replicate 18 '0'

/-- The numeric value computed by `convertToWei` (primary variant,
use-metamask.tsx): split at the decimal point, take the fractional part
padded-or-truncated to 18 digits, and combine the two parts with exact
`BigInt` arithmetic. -/
def convertToWeiNat (d : String) : Nat :=
  let parts := jsSplitDot d
  let integerPart := parts.headD []
  let decimalPart :=
    if parts.length > 1 then slice18 (padEnd18 (parts.getD 1 []))
    else zeros18
  let result := digitsVal integerPart * 10 ^ 18
  if decimalPart ≠ zeros18 then
    let decimalValue := digitsVal (slice18 (padEnd18 decimalPart))
    let decimalMultiplier := 10 ^ (18 - decimalPart.length)
    result + decimalValue * decimalMultiplier
  else
    result

/-- JS `n.toString(16)` (lowercase hexadecimal digits, `"0"` for 0,
no leading zeros). -/
def hexDigits (n : Nat) : String :=
  String.mk (Nat.toDigits 16 n)

/-- The string returned by `convertToWei`: `"0x" + result.toString(16)`. -/
def convertToWei (d : String) : String :=
  "0x" ++ hexDigits (convertToWeiNat d)

/-- Modelled from the spec wording (for the refinement comparison with
`convertToWeiNat`): split `d` at the decimal point into integer part `i`
and fractional part `f` (absent fraction = "0"); pad or truncate `f` to
exactly 18 digits; result `int(i) * 10 ^ 18 + int(f)`. -/
def specMinorUnits (d : String) : Nat :=
  let parts := jsSplitDot d
  let i := parts.headD []
  let f := if parts.length > 1 then parts.getD 1 [] else ['0']
  let f18 := slice18 (padEnd18 f)
  digitsVal i * 10 ^ 18 + digitsVal f18

/-- A plain decimal amount string: digit characters with at most one
decimal point. -/
def DecimalShape (d : String) : Prop :=
  ∃ i f : List Char, i.all Char.isDigit = true ∧ f.all Char.isDigit = true ∧
    (d.toList = i ∨ d.toList = i ++ '.' :: f)

/-- JS `parseFloat`, modelled exactly over rationals on its sign /
digits / point / digits prefix grammar (exponents, whitespace and
`Infinity` are outside the inputs the claims quantify over; the float
rounding of the source is the identity on the rational value for the
comparisons modelled here). `none` is `NaN`. -/
def parseAmount (d : String) : Option ℚ :=
  let l := d.toList
  let sign : ℚ :=
    match l with
    | '-' :: _ => -1
    | _ => 1
  let rest :=
    match l with
    | '-' :: cs => cs
    | '+' :: cs => cs
    | cs => cs
  let ip := rest.takeWhile Char.isDigit
  let rest2 := rest.dropWhile Char.isDigit
  let fp :=
    match rest2 with
    | '.' :: cs => cs.takeWhile Char.isDigit
    | _ => []
  if ip.isEmpty ∧ fp.isEmpty then none
  else some (sign * ((digitsVal ip : ℚ) + (digitsVal fp : ℚ) / 10 ^ fp.length))

/-- The `sendTransaction` amount validation:
`isNaN(amountNum) || amountNum <= 0` rejects. -/
def validateAmount (d : String) : Bool :=
  match parseAmount d with
  | none => false
  | some q => decide (0 < q)

/-! ## Wallet client: tiered conversion variant
(use-metamask.tsx, the variant at lines 981-1047)

The variant computes over JS floats; the model uses exact rationals for
the parsed amount and `Int.floor` for `Math.floor`.  The `catch`
fallback of its last branch (appending eighteen `"0"` characters) is
reachable only when `BigInt` throws, which cannot happen there, so it is
not modelled. -/

/-- `convertToWei` (tiered variant): amounts below 1e-6 become `"0x0"`;
up to 1e-4 a direct float product; up to 1e-2 a scaled product with a
literal `"00"` appended to the hex string; up to 1 and above 1, split
integer/fractional conversions. -/
def tieredConvertToWei (q : ℚ) : String :=
  if q < 1 / 1000000 then "0x0"
  else if q ≤ 1 / 10000 then "0x" ++ hexDigits (Int.toNat ⌊q * 10 ^ 18⌋)
  else if q ≤ 1 / 100 then
    "0x" ++ hexDigits (Int.toNat ⌊q * 10 ^ 16⌋) ++ "00"
  else if q ≤ 1 then
    let integerPart := Int.toNat ⌊q⌋
    let fractionalPart := q - integerPart
    let base : Nat :=
      if integerPart > 0 then integerPart * 1000000000000000000 else 0
    let result : Nat :=
      if fractionalPart > 0 then base + Int.toNat ⌊fractionalPart * 10 ^ 18⌋
      else base
    "0x" ++ hexDigits result
  else
    let integerPart := Int.toNat ⌊q⌋
    let fractionalPart : ℚ := (⌊(q - integerPart) * 10 ^ 6⌋ : ℚ) / 10 ^ 6
    let integerWei : Nat := integerPart * 1000000000000000000
    let fractionalWei : Nat :=
      if fractionalPart > 0 then Int.toNat ⌊fractionalPart * 10 ^ 18⌋ else 0
    "0x" ++ hexDigits (integerWei + fractionalWei)

/-! ## Wallet client: error shaping (client/src/lib/metamask-errors.ts) -/

/-- A raw provider error: numeric code (when present) and message. -/
structure RawError where
  code : Option Int
  message : String
  deriving DecidableEq

/-- `EnhancedMetaMaskError`: name, user-facing message, original code,
recommended user action. -/
structure EnhancedError where
  name : String
  message : String
  code : Option Int
  userAction : String
  deriving DecidableEq

/-- Contiguous-substring test on character lists. -/
def inclAux (p : List Char) : List Char → Bool
  | [] => p.isPrefixOf []
  | c :: cs => p.isPrefixOf (c :: cs) || inclAux p cs

/-- JS `s.includes(p)`. -/
def jsIncludes (s p : String) : Bool :=
  inclAux p.toList s.toList

/-- JS `s.toLowerCase()` (ASCII). -/
def jsToLower (s : String) : String :=
  String.mk (s.toList.map Char.toLower)

/-- `getMetaMaskErrorMessage`. -/
def getMetaMaskErrorMessage (e : RawError) : String :=
  let message := if e.message = "" then "Unknown MetaMask error" else e.message
  if e.code = some 4001 then
    "Transaction rejected. Please approve the transaction in MetaMask."
  else if e.code = some (-32602) then
    "Invalid transaction parameters. Try using a smaller amount (0.01 ETH or less)."
  else if e.code = some (-32603) then
    "Internal MetaMask error. Try refreshing the page."
  else if jsIncludes message ("insufficient funds") then
    "Insufficient funds in your wallet. Please add more ETH to continue."
  else if jsIncludes message ("buffer") || jsIncludes message ("out-of-bounds") then
    "Transaction format error. There might be an issue with the transaction data."
  else if jsIncludes message ("gas") then
    "Gas estimation failed. Try a smaller amount or set gas manually in MetaMask."
  else if jsIncludes message ("nonce") then
    "Transaction sequence error. Try resetting your account in MetaMask settings."
  else if jsIncludes message ("user denied") || jsIncludes message ("rejected") then
    "Transaction rejected. Please approve the transaction in MetaMask."
  else message

/-- `getMetaMaskErrorAction`. -/
def getMetaMaskErrorAction (e : RawError) : String :=
  let message := jsToLower e.message
  if e.code = some 4001 || jsIncludes message ("denied")
      || jsIncludes message ("rejected") then "approve"
  else if e.code = some (-32602) || jsIncludes message ("param")
      || jsIncludes message ("buffer") || jsIncludes message ("bounds") then
    "reduce_amount"
  else if jsIncludes message ("insufficient") || jsIncludes message ("funds") then
    "add_funds"
  else if jsIncludes message ("gas") then "manual_gas"
  else if jsIncludes message ("nonce") then "reset_account"
  else if e.code = some (-32603) || jsIncludes message ("internal") then
    "refresh"
  else "reduce_amount"

/-- `createEnhancedMetaMaskError` on a raw provider error. -/
def createEnhancedMetaMaskError (e : RawError) : EnhancedError :=
  ⟨"MetaMaskError", getMetaMaskErrorMessage e, e.code, getMetaMaskErrorAction e⟩

/-! ## Wallet client: transfer submission (use-metamask.tsx,
`sendTransaction` of the variant at lines 442-589) -/

/-- The client connection state the hook keeps: current address and the
connected flag. -/
structure WalletState where
  address : Option String
  isConnected : Bool
  deriving DecidableEq

/-- The provider's response to `eth_sendTransaction`. -/
inductive ProviderResult
  | success (txHash : String)
  | failure (code : Int) (message : String)
  deriving DecidableEq

/-- An error surfaced by `sendTransaction`: raw (thrown outside the try
block) or enhanced (shaped by `createEnhancedMetaMaskError`). -/
inductive MMError
  | raw (message : String)
  | enhanced (e : EnhancedError)
  deriving DecidableEq

/-- The try-block of `sendTransaction`: recipient and amount validation,
then the provider call; every throw is wrapped by
`createEnhancedMetaMaskError` in the catch. The connection state is not
written anywhere on this path. -/
def sendTransactionBody (w : WalletState) (toAddr amount : String)
    (pr : ProviderResult) : Except MMError String × WalletState :=
  if toAddr = "" ∨ ¬ (jsStartsWith toAddr "0x" = true) then
    (.error (.enhanced (createEnhancedMetaMaskError
      ⟨none, "Invalid recipient address. Ethereum addresses must start with 0x."⟩)), w)
  else if ¬ (validateAmount amount = true) then
    (.error (.enhanced (createEnhancedMetaMaskError
      ⟨none, "Invalid amount. Please enter a positive number."⟩)), w)
  else
    match pr with
    | .success tx => (.ok tx, w)
    | .failure code msg =>
      (.error (.enhanced (createEnhancedMetaMaskError ⟨some code, msg⟩)), w)

/-- `sendTransaction`: when not connected it first connects (`accounts`
is the provider's account list; the closed-over `address` binding stays
at its pre-call value, so the post-connect null check rethrows whenever
it was null), then runs the try-block. -/
def sendTransactionStep (w : WalletState) (accounts : List String)
    (toAddr amount : String) (pr : ProviderResult) :
    Except MMError String × WalletState :=
  if w.isConnected = false ∨ w.address = none then
    match accounts with
    | [] => (.error (.raw "Failed to connect to MetaMask"), w)
    | a :: _ =>
      match w.address with
      | none =>
        (.error (.raw "Failed to connect wallet. Please connect to MetaMask first."),
          ⟨some a, true⟩)
      | some _ => sendTransactionBody ⟨some a, true⟩ toAddr amount pr
  else
    sendTransactionBody w toAddr amount pr

/-! ## Wallet client: confirmation polling
(`checkTransactionConfirmation`) -/

/-- The provider's response to one `eth_getTransactionReceipt` call. -/
inductive ReceiptResponse
  | found (status : String)
  | notYet
  | callError
  deriving DecidableEq

/-- The poll's terminal outcome. -/
inductive ConfirmOutcome
  | confirmed
  | failedOnChain
  | unknown
  deriving DecidableEq

/-- `checkTransactionConfirmation`: polls at a fixed 2-second interval;
stops on its own once `attempts > 30`; a receipt decides
confirmed/failed by its status, a missing receipt or a request error
retries with the counter incremented.  `responses n` is the provider's
answer at attempt `n`. -/
def checkConfirm (responses : Nat → ReceiptResponse) (attempts : Nat) :
    ConfirmOutcome :=
  if attempts > 30 then .unknown
  else
    match responses attempts with
    | .found status => if status = "0x1" then .confirmed else .failedOnChain
    | .notYet => checkConfirm responses (attempts + 1)
    | .callError => checkConfirm responses (attempts + 1)
  termination_by 31 - attempts
  decreasing_by all_goals omega

/-- The number of receipt requests the poll issues from a given attempt
counter. -/
def checkConfirmCalls (responses : Nat → ReceiptResponse) (attempts : Nat) :
    Nat :=
  if attempts > 30 then 0
  else
    match responses attempts with
    | .found _ => 1
    | .notYet => 1 + checkConfirmCalls responses (attempts + 1)
    | .callError => 1 + checkConfirmCalls responses (attempts + 1)
  termination_by 31 - attempts
  decreasing_by all_goals omega

/-! ## C3: minor-unit conversion -/

theorem slice18_padEnd18_length (l : List Char) :
    (slice18 (padEnd18 l)).length = 18 := by
  simp only [slice18, padEnd18, List.length_take, List.length_append,
    List.length_replicate]
  omega

theorem slice18_padEnd18_of_length (l : List Char) (h : l.length = 18) :
    slice18 (padEnd18 l) = l := by
  unfold slice18 padEnd18
  rw [h, Nat.sub_self, List.replicate_zero, List.append_nil]
  exact List.take_of_length_le (by omega)

theorem digitsVal_zeros18 : digitsVal zeros18 = 0 := by decide

/-- The primary conversion agrees with the spec formula
`int(i) * 10 ^ 18 + int(f18)` on every input string. -/
theorem convertToWeiNat_eq_spec (d : String) :
    convertToWeiNat d = specMinorUnits d := by
  simp only [convertToWeiNat, specMinorUnits]
  by_cases hlen : (jsSplitDot d).length > 1
  · rw [if_pos hlen, if_pos hlen]
    by_cases hz : slice18 (padEnd18 ((jsSplitDot d).getD 1 [])) = zeros18
    · rw [if_neg (not_not_intro hz), hz, digitsVal_zeros18]
      exact (Nat.add_zero _).symm
    · rw [if_pos hz]
      have h18 : (slice18 (padEnd18 ((jsSplitDot d).getD 1 []))).length = 18 :=
        slice18_padEnd18_length _
      rw [slice18_padEnd18_of_length _ h18, h18, Nat.sub_self, pow_zero,
        Nat.mul_one]
  · rw [if_neg hlen, if_neg hlen]
    have hne : ¬ (zeros18 ≠ zeros18) := by simp
    rw [if_neg hne]
    have h0 : digitsVal (slice18 (padEnd18 ['0'])) = 0 := by decide
    rw [h0, Nat.add_zero]

/-- C3 counterexample: the claim asserts that `"0.000001"` converts to
1000000000, but the conversion (and the claim's own formula
`i * 10 ^ 18 + int(f18)`) gives 10 ^ 12 = 1000000000000. -/
theorem convert_to_wei_example_counterexample :
    convertToWeiNat "0.000001" ≠ 1000000000 := by decide

/-- C3 (amended): the conversion returns `i * 10 ^ 18 + int(f18)` for
decimal amount strings (fraction padded or truncated to 18 digits,
absent fraction = "0"); `"1.5"` converts to 1500000000000000000 and
`"0.000001"` to 1000000000000; and any non-numeric, zero, or negative
amount is rejected as invalid input before submission to the provider. -/
theorem convert_to_wei_semantics :
    (∀ d : String, DecimalShape d →
      convertToWeiNat d = specMinorUnits d ∧
      convertToWei d = "0x" ++ hexDigits (specMinorUnits d)) ∧
    convertToWeiNat "1.5" = 1500000000000000000 ∧
    convertToWeiNat "0.000001" = 1000000000000 ∧
    validateAmount "0" = false ∧
    (∀ (d : String) (q : ℚ), parseAmount d = some q → q < 0 →
      validateAmount d = false) ∧
    (∀ d : String, parseAmount d = none → validateAmount d = false) ∧
    (∀ (w : WalletState) (accounts : List String)
        (toAddr amount : String) (pr : ProviderResult),
      validateAmount amount = false → w.isConnected = true →
      ¬ (w.address = none) → ¬ (toAddr = "") →
      jsStartsWith toAddr "0x" = true →
      sendTransactionStep w accounts toAddr amount pr
        = (.error (.enhanced (createEnhancedMetaMaskError
            ⟨none, "Invalid amount. Please enter a positive number."⟩)), w)) := by
  refine ⟨?_, by decide, by decide, ?_, ?_, ?_, ?_⟩
  · intro d _
    exact ⟨convertToWeiNat_eq_spec d,
      by unfold convertToWei; rw [convertToWeiNat_eq_spec d]⟩
  · have h0 : parseAmount "0" = some ((1 : ℚ) * ((digitsVal ['0'] : ℚ)
        + (digitsVal [] : ℚ) / 10 ^ (0 : Nat))) := rfl
    have hd0 : digitsVal ['0'] = 0 := by decide
    have hdn : digitsVal ([] : List Char) = 0 := rfl
    unfold validateAmount
    rw [h0, hd0, hdn]
    norm_num
  · intro d q hp hq
    unfold validateAmount
    rw [hp]
    simp only [decide_eq_false_iff_not]
    exact lt_asymm hq
  · intro d hp
    unfold validateAmount
    rw [hp]
  · intro w accounts toAddr amount pr hval hconn haddr hto hsw
    unfold sendTransactionStep
    rw [if_neg (by simp [hconn, haddr])]
    unfold sendTransactionBody
    rw [if_neg (by simp [hto, hsw]), if_pos (by simp [hval])]

/-- C3 witness: the amended claim at concrete inputs — formula and hex
form for "1.5", rejection of "-1" and "abc", and the pre-submission
rejection of amount "0" with the provider primed to succeed. -/
theorem convert_to_wei_semantics_witness :
    (convertToWeiNat "1.5" = specMinorUnits "1.5" ∧
      convertToWei "1.5" = "0x" ++ hexDigits (specMinorUnits "1.5")) ∧
    validateAmount "-1" = false ∧
    validateAmount "abc" = false ∧
    sendTransactionStep ⟨some "0xme", true⟩ [] "0xyou" "0"
        (ProviderResult.success "0xtx")
      = (.error (.enhanced (createEnhancedMetaMaskError
          ⟨none, "Invalid amount. Please enter a positive number."⟩)),
         (⟨some "0xme", true⟩ : WalletState)) := by
  refine ⟨convert_to_wei_semantics.1 "1.5"
    ⟨['1'], ['5'], by decide, by decide, Or.inr rfl⟩, ?_, ?_, ?_⟩
  · have hm1 : parseAmount "-1" = some ((-1 : ℚ) * ((digitsVal ['1'] : ℚ)
        + (digitsVal [] : ℚ) / 10 ^ (0 : Nat))) := rfl
    refine convert_to_wei_semantics.2.2.2.2.1 "-1" _ hm1 ?_
    have d1 : digitsVal ['1'] = 1 := by decide
    have d2 : digitsVal ([] : List Char) = 0 := rfl
    rw [d1, d2]
    norm_num
  · exact convert_to_wei_semantics.2.2.2.2.2.1 "abc" rfl
  · exact convert_to_wei_semantics.2.2.2.2.2.2 ⟨some "0xme", true⟩ []
      "0xyou" "0" (ProviderResult.success "0xtx")
      convert_to_wei_semantics.2.2.2.1 rfl (by simp) (by simp) (by decide)

/-! ## C9: the hexadecimal wire encoding -/

/-- C9 (code-bug evaluation): the primary conversion emits exactly
"0x" ++ base-16 of the minor-unit integer, but the tiered variant's
branch for amounts up to 0.01 appends the literal string "00" to the hex
digits — a factor of 16 ^ 2 = 256, not the two decimal zeros its comment
intends — so at amount 0.001 (minor-unit integer 10 ^ 15) it submits
"0x" ++ hex(10 ^ 13) ++ "00", which is not the hex encoding of the
minor-unit integer. -/
theorem hex_encoding_code_bug :
    convertToWei "0.001" = "0x" ++ hexDigits 1000000000000000 ∧
    tieredConvertToWei (1 / 1000)
      = "0x" ++ hexDigits 10000000000000 ++ "00" ∧
    tieredConvertToWei (1 / 1000) ≠ "0x" ++ hexDigits 1000000000000000 ∧
    hexDigits 1000000000000000 = "38d7ea4c68000" ∧
    hexDigits 10000000000000 = "9184e72a000" := by
  have h2 : tieredConvertToWei (1 / 1000)
      = "0x" ++ hexDigits 10000000000000 ++ "00" := by
    unfold tieredConvertToWei
    rw [if_neg (by norm_num), if_neg (by norm_num), if_pos (by norm_num)]
    have h1 : (1 / 1000 : ℚ) * 10 ^ 16 = ((10 ^ 13 : ℤ) : ℚ) := by norm_num
    rw [h1, Int.floor_intCast]
    decide
  refine ⟨by decide, h2, ?_, by decide, by decide⟩
  rw [h2]
  decide

/-! ## C10: sub-threshold amounts submit zero value -/

/-- C10: in the tiered conversion variant, every amount that parses to a
positive value strictly below 0.000001 passes the positive-amount
validation yet converts to "0x0", the zero minor-unit value. -/
theorem tiny_amount_zero_value (d : String) (q : ℚ)
    (hp : parseAmount d = some q) (h0 : 0 < q) (h1 : q < 1 / 1000000) :
    validateAmount d = true ∧ tieredConvertToWei q = "0x0" := by
  constructor
  · unfold validateAmount
    rw [hp]
    exact decide_eq_true h0
  · unfold tieredConvertToWei
    rw [if_pos h1]

/-- C10 witness: "0.0000005" parses to 1/2000000, is accepted, and
converts to "0x0". -/
theorem tiny_amount_zero_value_witness :
    validateAmount "0.0000005" = true ∧
    tieredConvertToWei (1 / 2000000) = "0x0" := by
  have hp : parseAmount "0.0000005" = some ((1 : ℚ) * ((digitsVal ['0'] : ℚ)
      + (digitsVal ['0', '0', '0', '0', '0', '0', '5'] : ℚ)
        / 10 ^ (7 : Nat))) := rfl
  have hval : (1 : ℚ) * ((digitsVal ['0'] : ℚ)
      + (digitsVal ['0', '0', '0', '0', '0', '0', '5'] : ℚ)
        / 10 ^ (7 : Nat)) = 1 / 2000000 := by
    have d1 : digitsVal ['0'] = 0 := by decide
    have d2 : digitsVal ['0', '0', '0', '0', '0', '0', '5'] = 5 := by decide
    rw [d1, d2]
    norm_num
  exact tiny_amount_zero_value "0.0000005" (1 / 2000000)
    (by rw [hp, hval]) (by norm_num) (by norm_num)

/-! ## C7: user rejection leaves the connection state unchanged -/

/-- C7: when the provider reports user rejection (code 4001) for a
submitted transfer from a connected client, `sendTransaction` raises the
enhanced rejection error while the connection state is returned exactly
as it was — same address, still connected — and no failure state is
entered. -/
theorem user_rejection_keeps_connection (w : WalletState)
    (a toAddr amount msg : String) (accounts : List String)
    (hconn : w.isConnected = true) (haddr : w.address = some a)
    (hto : ¬ (toAddr = "")) (hsw : jsStartsWith toAddr "0x" = true)
    (hamt : validateAmount amount = true) :
    sendTransactionStep w accounts toAddr amount (.failure 4001 msg)
      = (.error (.enhanced (createEnhancedMetaMaskError ⟨some 4001, msg⟩)), w) ∧
    (createEnhancedMetaMaskError ⟨some 4001, msg⟩).code = some 4001 ∧
    (createEnhancedMetaMaskError ⟨some 4001, msg⟩).userAction = "approve" ∧
    (createEnhancedMetaMaskError ⟨some 4001, msg⟩).message
      = "Transaction rejected. Please approve the transaction in MetaMask." := by
  refine ⟨?_, rfl, ?_, ?_⟩
  · unfold sendTransactionStep
    rw [if_neg (by simp [hconn, haddr])]
    unfold sendTransactionBody
    rw [if_neg (by simp [hto, hsw]), if_neg (by simp [hamt])]
  · unfold createEnhancedMetaMaskError getMetaMaskErrorAction
    simp
  · unfold createEnhancedMetaMaskError getMetaMaskErrorMessage
    simp

/-- C7 witness: a rejected 1.5-unit transfer from a connected state
returns that very state and the approve-action rejection error. -/
theorem user_rejection_keeps_connection_witness :
    sendTransactionStep ⟨some "0xme", true⟩ [] "0xyou" "1.5"
        (.failure 4001 "User denied transaction signature.")
      = (.error (.enhanced (createEnhancedMetaMaskError
          ⟨some 4001, "User denied transaction signature."⟩)),
         (⟨some "0xme", true⟩ : WalletState)) ∧
    (createEnhancedMetaMaskError
      ⟨some 4001, "User denied transaction signature."⟩).userAction
      = "approve" := by
  have hp : parseAmount "1.5" = some ((1 : ℚ) * ((digitsVal ['1'] : ℚ)
      + (digitsVal ['5'] : ℚ) / 10 ^ (1 : Nat))) := rfl
  have hamt : validateAmount "1.5" = true := by
    unfold validateAmount
    rw [hp]
    apply decide_eq_true
    have d1 : digitsVal ['1'] = 1 := by decide
    have d2 : digitsVal ['5'] = 5 := by decide
    rw [d1, d2]
    norm_num
  have h := user_rejection_keeps_connection ⟨some "0xme", true⟩ "0xme"
    "0xyou" "1.5" "User denied transaction signature." [] rfl rfl
    (by simp) (by decide) hamt
  exact ⟨h.1, h.2.2.1⟩

/-! ## C8: bounded confirmation polling -/

theorem checkConfirmCalls_le (responses : Nat → ReceiptResponse) :
    ∀ (k a : Nat), 31 - a ≤ k → checkConfirmCalls responses a ≤ k := by
  intro k
  induction k with
  | zero =>
    intro a ha
    unfold checkConfirmCalls
    rw [if_pos (by omega)]
  | succ k ih =>
    intro a ha
    unfold checkConfirmCalls
    by_cases h30 : a > 30
    · rw [if_pos h30]
      omega
    · rw [if_neg h30]
      cases hr : responses a with
      | found st =>
        simp only [hr]
        omega
      | notYet =>
        simp only [hr]
        have := ih (a + 1) (by omega)
        omega
      | callError =>
        simp only [hr]
        have := ih (a + 1) (by omega)
        omega

theorem checkConfirm_unknown_aux (responses : Nat → ReceiptResponse)
    (h : ∀ i st, ¬ (responses i = .found st)) :
    ∀ (k a : Nat), 31 - a ≤ k → checkConfirm responses a = .unknown := by
  intro k
  induction k with
  | zero =>
    intro a ha
    unfold checkConfirm
    rw [if_pos (by omega)]
  | succ k ih =>
    intro a ha
    unfold checkConfirm
    by_cases h30 : a > 30
    · rw [if_pos h30]
    · rw [if_neg h30]
      cases hr : responses a with
      | found st => exact absurd hr (h a st)
      | notYet =>
        simp only [hr]
        exact ih (a + 1) (by omega)
      | callError =>
        simp only [hr]
        exact ih (a + 1) (by omega)

theorem checkConfirm_confirmed_aux (responses : Nat → ReceiptResponse) :
    ∀ (k a : Nat), 31 - a ≤ k → checkConfirm responses a = .confirmed →
      ∃ i, a ≤ i ∧ i ≤ 30 ∧ responses i = .found "0x1" := by
  intro k
  induction k with
  | zero =>
    intro a ha hc
    unfold checkConfirm at hc
    rw [if_pos (by omega)] at hc
    cases hc
  | succ k ih =>
    intro a ha hc
    unfold checkConfirm at hc
    by_cases h30 : a > 30
    · rw [if_pos h30] at hc
      cases hc
    · rw [if_neg h30] at hc
      cases hr : responses a with
      | found st =>
        simp only [hr] at hc
        by_cases hst : st = "0x1"
        · exact ⟨a, le_refl a, by omega, by rw [hr, hst]⟩
        · rw [if_neg hst] at hc
          cases hc
      | notYet =>
        simp only [hr] at hc
        obtain ⟨i, h1, h2, h3⟩ := ih (a + 1) (by omega) hc
        exact ⟨i, by omega, h2, h3⟩
      | callError =>
        simp only [hr] at hc
        obtain ⟨i, h1, h2, h3⟩ := ih (a + 1) (by omega) hc
        exact ⟨i, by omega, h2, h3⟩

/-- C8: the confirmation poll issues at most 31 receipt requests and then
stops on its own; exhausting every attempt without a receipt yields the
unknown outcome; and the confirmed outcome occurs only when some attempt
within the bound returned a receipt with success status "0x1" — with no
success-status receipt the transfer is never reported confirmed. -/
theorem confirmation_poll_semantics (responses : Nat → ReceiptResponse) :
    checkConfirmCalls responses 0 ≤ 31 ∧
    ((∀ i st, ¬ (responses i = .found st)) →
      checkConfirm responses 0 = .unknown) ∧
    (∀ a, checkConfirm responses a = .confirmed →
      ∃ i, a ≤ i ∧ i ≤ 30 ∧ responses i = .found "0x1") := by
  refine ⟨checkConfirmCalls_le responses 31 0 (by omega), ?_, ?_⟩
  · intro h
    exact checkConfirm_unknown_aux responses h 31 0 (by omega)
  · intro a hc
    exact checkConfirm_confirmed_aux responses (31 - a) a (le_refl _) hc

/-- C8 witness: a provider that never returns a receipt ends in the
unknown outcome within the 31-call bound, and a provider returning a
success receipt at once shows the success-receipt existence through the
soundness direction. -/
theorem confirmation_poll_semantics_witness :
    checkConfirmCalls (fun _ => ReceiptResponse.notYet) 0 ≤ 31 ∧
    checkConfirm (fun _ => ReceiptResponse.notYet) 0
      = ConfirmOutcome.unknown ∧
    (∃ i, 0 ≤ i ∧ i ≤ 30 ∧
      (fun _ : Nat => ReceiptResponse.found "0x1") i
        = ReceiptResponse.found "0x1") := by
  refine ⟨(confirmation_poll_semantics (fun _ => .notYet)).1,
    (confirmation_poll_semantics (fun _ => .notYet)).2.1
      (fun i st => by simp), ?_⟩
  refine (confirmation_poll_semantics (fun _ => .found "0x1")).2.2 0 ?_
  unfold checkConfirm
  norm_num

end Ledger
